import Mathlib

/-!
Shallow embedding of the model-selection and rate-limit accounting core of a
multi-provider LLM request router (TypeScript: `src/core/usage-tracker.ts` and
the model manager), together with theorems checking the specification claims.

Modelling conventions:
* JavaScript numbers are modelled as exact rationals `ℚ`.  A JS number that may
  be `NaN` or `undefined` is modelled as `Option ℚ` with `none` standing for
  NaN-or-undefined; the two are indistinguishable to every numeric read in this
  program (both are falsy, make every `<`, `>`, `≤` comparison false, and
  propagate through arithmetic as NaN), so one `none` is faithful for both.
* `Date.now()` and the local-midnight value `new Date().setHours(0,0,0,0)` are
  environment inputs; they are passed as explicit `now` / `dayStart` parameters.
* The mutable singleton `Map` of per-model usage stats is modelled as an
  association list threaded through every operation; `Headers` is an
  association list of header name/value pairs.
* Thrown `Error`s of the model manager are modelled as result constructors.
-/

namespace MultiAI

/-- A JavaScript number that may be NaN or undefined (`none`). -/
abbrev JsNum := Option ℚ

/-- JS `<=` on numbers: false whenever either side is NaN/undefined. -/
def jsLe : JsNum → JsNum → Bool
  | some a, some b => a ≤ b
  | _, _ => false

/-- JS `<` on numbers: false whenever either side is NaN/undefined. -/
def jsLt : JsNum → JsNum → Bool
  | some a, some b => a < b
  | _, _ => false

/-- JS `+` on numbers: NaN-propagating. -/
def jsAdd : JsNum → JsNum → JsNum
  | some a, some b => some (a + b)
  | _, _ => none

/-- JS `-` on numbers: NaN-propagating. -/
def jsSub : JsNum → JsNum → JsNum
  | some a, some b => some (a - b)
  | _, _ => none

/-- JS `*` on numbers: NaN-propagating. -/
def jsMul : JsNum → JsNum → JsNum
  | some a, some b => some (a * b)
  | _, _ => none

/-- JS `Math.ceil`: NaN-propagating. -/
def jsCeil : JsNum → JsNum
  | some q => some (⌈q⌉ : ℤ)
  | none => none

/-- Read a JS number under a guard that has already ensured it is a real
number (the default is never reached on the guarded paths where it is used). -/
def jsVal : JsNum → ℚ
  | some q => q
  | none => 0

/-- Rendering of a JS number inside a template literal.  Every call site in the
program renders either an integer or NaN, so only the `den = 1` case is ever
reached with a concrete source value. -/
def jsNumStr : JsNum → String
  | some q => if q.den = 1 then toString q.num else toString q
  | none => "NaN"

/-- Numeric value of a run of decimal digit characters. -/
def digitsVal (ds : List Char) : ℕ :=
  ds.foldl (fun a c => 10 * a + (c.toNat - 48)) 0

/-- JS `parseInt(s, 10)`: skip leading whitespace, optional sign, longest digit
prefix; NaN (`none`) when there is no digit.  Trailing junk is ignored. -/
def parseIntJs (s : String) : JsNum :=
  let cs := s.data.dropWhile (·.isWhitespace)
  let sign : ℚ := match cs with | '-' :: _ => -1 | _ => 1
  let cs1 : List Char := match cs with | '-' :: r => r | '+' :: r => r | _ => cs
  let ds := cs1.takeWhile (·.isDigit)
  if ds.isEmpty then none else some (sign * (digitsVal ds : ℚ))

/-- JS `parseFloat(s)`: skip leading whitespace, optional sign, decimal digits
with optional fraction and optional exponent; NaN (`none`) when neither the
integer part nor the fraction has a digit.  Trailing junk is ignored. -/
def parseFloatJs (s : String) : JsNum :=
  let cs := s.data.dropWhile (·.isWhitespace)
  let sign : ℚ := match cs with | '-' :: _ => -1 | _ => 1
  let cs1 : List Char := match cs with | '-' :: r => r | '+' :: r => r | _ => cs
  let ip := cs1.takeWhile (·.isDigit)
  let cs2 := cs1.dropWhile (·.isDigit)
  let fp : List Char := match cs2 with
    | '.' :: r => r.takeWhile (·.isDigit)
    | _ => []
  let cs3 : List Char := match cs2 with
    | '.' :: r => r.dropWhile (·.isDigit)
    | _ => cs2
  if ip.isEmpty ∧ fp.isEmpty then none
  else
    let mantissa : ℚ := (digitsVal ip : ℚ) + (digitsVal fp : ℚ) / (10 : ℚ) ^ fp.length
    let expo : ℤ := match cs3 with
      | c :: r =>
        if c = 'e' ∨ c = 'E' then
          let esign : ℤ := match r with | '-' :: _ => -1 | _ => 1
          let r1 := match r with | '-' :: r' => r' | '+' :: r' => r' | _ => r
          let eds := r1.takeWhile (·.isDigit)
          if eds.isEmpty then 0 else esign * (digitsVal eds : ℤ)
        else 0
      | [] => 0
    some (sign * mantissa * (10 : ℚ) ^ expo)

/-- Millisecond factor of a Groq duration unit character (`h`, `m` or `s`). -/
def unitFactor (c : Char) : ℚ :=
  if c = 'h' then 3600 * 1000 else if c = 'm' then 60 * 1000 else 1000

/-- One pass of the `parseGroqDuration` scan, i.e. the repeated `exec` of the
regex `(\d+(?:\.\d+)?)([hms])` with the `g` flag: find a digit run with an
optional fraction immediately followed by a unit character, add its millisecond
value, and continue after the match; positions where no match starts are
skipped.  The fuel argument (initially the string length) only bounds the
recursion; every recursive call consumes at least one character. -/
def groqScan : ℕ → List Char → ℚ
  | 0, _ => 0
  | _, [] => 0
  | fuel + 1, c :: cs =>
    if c.isDigit then
      let ds := (c :: cs).takeWhile (·.isDigit)
      let rest := (c :: cs).dropWhile (·.isDigit)
      match rest with
      | '.' :: d :: r =>
        if d.isDigit then
          let fs := (d :: r).takeWhile (·.isDigit)
          let rest2 := (d :: r).dropWhile (·.isDigit)
          match rest2 with
          | u :: r2 =>
            if u = 'h' ∨ u = 'm' ∨ u = 's' then
              ((digitsVal ds : ℚ) + (digitsVal fs : ℚ) / (10 : ℚ) ^ fs.length) * unitFactor u
                + groqScan fuel r2
            else groqScan fuel rest2
          | [] => 0
        else groqScan fuel rest
      | u :: r2 =>
        if u = 'h' ∨ u = 'm' ∨ u = 's' then (digitsVal ds : ℚ) * unitFactor u + groqScan fuel r2
        else groqScan fuel rest
      | [] => 0
    else groqScan fuel cs

/-- `parseGroqDuration`: total milliseconds of all unit groups found in a Groq
duration string such as `"12m3.5s"`, `"4s"`, `"1h"`; `0` when none is found. -/
def parseGroqDuration (duration : String) : ℚ :=
  groqScan duration.data.length duration.data

/-- Provider tag (`ProviderName` in `src/types.ts`). -/
inductive ProviderName
  | groq
  | cerebras
deriving DecidableEq, Repr

/-- Rendering of a provider tag inside a template literal. -/
def ProviderName.str : ProviderName → String
  | .groq => "groq"
  | .cerebras => "cerebras"

/-- Configured Groq free-tier limits (`GroqRateLimits`). -/
structure GroqRateLimits where
  requestsPerMinute : ℚ
  requestsPerDay : ℚ
  tokensPerMinute : ℚ
  tokensPerDay : ℚ
deriving DecidableEq, Repr

/-- Configured Cerebras free-tier limits (`CerebrasRateLimits`). -/
structure CerebrasRateLimits where
  requestsPerMinute : ℚ
  requestsPerHour : ℚ
  requestsPerDay : ℚ
  tokensPerMinute : ℚ
  tokensPerHour : ℚ
  tokensPerDay : ℚ
deriving DecidableEq, Repr

/-- A model's configured limits, one of the two provider shapes. -/
inductive RateLimits
  | groq (l : GroqRateLimits)
  | cerebras (l : CerebrasRateLimits)
deriving DecidableEq, Repr

/-- `limits.requestsPerDay` — present on both provider shapes, so the source's
`model.limits as GroqRateLimits` casts read it regardless of the actual shape. -/
def RateLimits.requestsPerDay : RateLimits → ℚ
  | .groq l => l.requestsPerDay
  | .cerebras l => l.requestsPerDay

/-- `limits.tokensPerMinute` — present on both provider shapes. -/
def RateLimits.tokensPerMinute : RateLimits → ℚ
  | .groq l => l.tokensPerMinute
  | .cerebras l => l.tokensPerMinute

/-- Static model configuration (`ModelConfig`).  The generation-parameter
defaults (`temperature`, `maxTokens`, `topP`) are opaque payload never read by
the tracker or the manager and are omitted. -/
structure ModelConfig where
  id : String
  name : String
  provider : ProviderName
  enabled : Bool
  limits : RateLimits
deriving DecidableEq, Repr

/-- Unified per-model rate-limit state.  The TypeScript source uses two
structurally typed shapes (`GroqRateLimitState`, `CerebrasRateLimitState`)
sharing the four remaining/limit fields; reading a field that the runtime shape
does not define yields `undefined`.  We model a single record whose
provider-specific fields hold `none` (undefined/NaN) when the creating shape
does not define them — faithful because every reader of these fields treats
undefined and NaN identically (falsy; all comparisons false; NaN arithmetic). -/
structure RateLimitState where
  remainingRequestsDay : JsNum
  remainingTokensMinute : JsNum
  limitRequestsDay : JsNum
  limitTokensMinute : JsNum
  /-- Groq: absolute reset timestamp in ms. -/
  resetRequestsAt : JsNum
  /-- Groq: absolute reset timestamp in ms. -/
  resetTokensAt : JsNum
  /-- Cerebras: seconds until reset, as last reported. -/
  resetRequestsDaySeconds : JsNum
  /-- Cerebras: seconds until reset, as last reported. -/
  resetTokensMinuteSeconds : JsNum
  /-- Groq only, optional: `retry-after` seconds from a 429 response. -/
  retryAfter : JsNum
  lastUpdated : ℚ
deriving DecidableEq, Repr

/-- Per-model usage stats (`UsageStats`). -/
structure UsageStats where
  provider : ProviderName
  rateLimitState : RateLimitState
  requestsToday : ℚ
  tokensToday : ℚ
  dayStart : ℚ
deriving DecidableEq, Repr

/-- The tracker's `Map<string, UsageStats>` keyed by model id. -/
abbrev Tracker := List (String × UsageStats)

/-- Response headers: name/value pairs; `get` of a missing name is `null`. -/
abbrev HeadersM := List (String × String)

/-- `headers.get(name)`. -/
def hGet (headers : HeadersM) (name : String) : Option String :=
  List.lookup name headers

/-- JS truthiness of `headers.get(name)`: `null` and `""` are falsy. -/
def headerTruthy : Option String → Bool
  | some s => s ≠ ""
  | none => false

/-- `Map.set`-style update of an association list: replaces the first binding
of the key in place, appends when absent. -/
def setKey {α : Type} : List (String × α) → String → α → List (String × α)
  | [], k, v => [(k, v)]
  | (k', v') :: rest, k, v =>
    if k = k' then (k, v) :: rest else (k', v') :: setKey rest k v

/-- `createGroqState`: seed state from the configured limits. -/
def createGroqState (limits : RateLimits) : RateLimitState where
  remainingRequestsDay := some limits.requestsPerDay
  remainingTokensMinute := some limits.tokensPerMinute
  limitRequestsDay := some limits.requestsPerDay
  limitTokensMinute := some limits.tokensPerMinute
  resetRequestsAt := some 0
  resetTokensAt := some 0
  resetRequestsDaySeconds := none
  resetTokensMinuteSeconds := none
  retryAfter := none
  lastUpdated := 0

/-- `createCerebrasState`: seed state from the configured limits. -/
def createCerebrasState (limits : RateLimits) : RateLimitState where
  remainingRequestsDay := some limits.requestsPerDay
  remainingTokensMinute := some limits.tokensPerMinute
  limitRequestsDay := some limits.requestsPerDay
  limitTokensMinute := some limits.tokensPerMinute
  resetRequestsAt := none
  resetTokensAt := none
  resetRequestsDaySeconds := some 0
  resetTokensMinuteSeconds := some 0
  retryAfter := none
  lastUpdated := 0

/-- The stats object created on first access for a model. -/
def freshStats (model : ModelConfig) (dayStart : ℚ) : UsageStats where
  provider := model.provider
  rateLimitState :=
    match model.provider with
    | .groq => createGroqState model.limits
    | .cerebras => createCerebrasState model.limits
  requestsToday := 0
  tokensToday := 0
  dayStart := dayStart

/-- Reset the daily counters when the local day has rolled over. -/
def rollDay (stats : UsageStats) (dayStart : ℚ) : UsageStats :=
  if stats.dayStart ≠ dayStart then
    { stats with requestsToday := 0, tokensToday := 0, dayStart := dayStart }
  else stats

/-- `getStats`: get-or-create the stats entry for a model, rolling the daily
counters on a day change; returns the entry together with the updated map. -/
def getStats (t : Tracker) (model : ModelConfig) (dayStart : ℚ) : UsageStats × Tracker :=
  let stats0 :=
    match List.lookup model.id t with
    | some s => s
    | none => freshStats model dayStart
  let stats := rollDay stats0 dayStart
  (stats, setKey t model.id stats)

/-- `updateFromGroqHeaders`: apply an authoritative Groq header snapshot.
The source's sequence of conditional assignments touches pairwise distinct
fields, so it is written here as the equivalent simultaneous record update. -/
def updateFromGroqHeaders (state : RateLimitState) (headers : HeadersM) (now : ℚ) :
    RateLimitState :=
  let remReq := hGet headers "x-ratelimit-remaining-requests"
  let remTok := hGet headers "x-ratelimit-remaining-tokens"
  let limitReq := hGet headers "x-ratelimit-limit-requests"
  let limitTok := hGet headers "x-ratelimit-limit-tokens"
  let resetReqStr := hGet headers "x-ratelimit-reset-requests"
  let resetTokStr := hGet headers "x-ratelimit-reset-tokens"
  let retryA := hGet headers "retry-after"
  { state with
    remainingRequestsDay :=
      if headerTruthy remReq then parseIntJs (remReq.getD "") else state.remainingRequestsDay
    remainingTokensMinute :=
      if headerTruthy remTok then parseIntJs (remTok.getD "") else state.remainingTokensMinute
    limitRequestsDay :=
      if headerTruthy limitReq then parseIntJs (limitReq.getD "") else state.limitRequestsDay
    limitTokensMinute :=
      if headerTruthy limitTok then parseIntJs (limitTok.getD "") else state.limitTokensMinute
    resetRequestsAt :=
      if headerTruthy resetReqStr then some (now + parseGroqDuration (resetReqStr.getD ""))
      else state.resetRequestsAt
    resetTokensAt :=
      if headerTruthy resetTokStr then some (now + parseGroqDuration (resetTokStr.getD ""))
      else state.resetTokensAt
    retryAfter :=
      if headerTruthy retryA then parseIntJs (retryA.getD "") else state.retryAfter
    lastUpdated := now }

/-- `updateFromCerebrasHeaders`: apply an authoritative Cerebras snapshot.
Written as a simultaneous record update like `updateFromGroqHeaders`. -/
def updateFromCerebrasHeaders (state : RateLimitState) (headers : HeadersM) (now : ℚ) :
    RateLimitState :=
  let remReq := hGet headers "x-ratelimit-remaining-requests-day"
  let remTok := hGet headers "x-ratelimit-remaining-tokens-minute"
  let limitReq := hGet headers "x-ratelimit-limit-requests-day"
  let limitTok := hGet headers "x-ratelimit-limit-tokens-minute"
  let resetReq := hGet headers "x-ratelimit-reset-requests-day"
  let resetTok := hGet headers "x-ratelimit-reset-tokens-minute"
  { state with
    remainingRequestsDay :=
      if headerTruthy remReq then parseIntJs (remReq.getD "") else state.remainingRequestsDay
    remainingTokensMinute :=
      if headerTruthy remTok then parseIntJs (remTok.getD "") else state.remainingTokensMinute
    limitRequestsDay :=
      if headerTruthy limitReq then parseIntJs (limitReq.getD "") else state.limitRequestsDay
    limitTokensMinute :=
      if headerTruthy limitTok then parseIntJs (limitTok.getD "") else state.limitTokensMinute
    resetRequestsDaySeconds :=
      if headerTruthy resetReq then parseFloatJs (resetReq.getD "")
      else state.resetRequestsDaySeconds
    resetTokensMinuteSeconds :=
      if headerTruthy resetTok then parseFloatJs (resetTok.getD "")
      else state.resetTokensMinuteSeconds
    lastUpdated := now }

/-- `updateFromHeaders` (public): silently ignores unknown model ids. -/
def updateFromHeaders (t : Tracker) (modelId : String) (provider : ProviderName)
    (headers : HeadersM) (now : ℚ) : Tracker :=
  match List.lookup modelId t with
  | none => t
  | some stats =>
    match provider with
    | .groq =>
      setKey t modelId
        { stats with rateLimitState := updateFromGroqHeaders stats.rateLimitState headers now }
    | .cerebras =>
      setKey t modelId
        { stats with rateLimitState := updateFromCerebrasHeaders stats.rateLimitState headers now }

/-- `formatDuration` on a JS number.  Call sites always pass a `Math.ceil`
result, so `some q` always has `q` integral; `none` renders as the JS NaN case
(`Math.floor(NaN)` is NaN in both positions). -/
def formatDuration (seconds : JsNum) : String :=
  match seconds with
  | none => "NaNh NaNm"
  | some q =>
    if q < 60 then jsNumStr (some q) ++ "s"
    else if q < 3600 then
      let m : ℤ := ⌊q / 60⌋
      let secPart : ℚ := q - 60 * (⌊q / 60⌋ : ℚ)
      toString m ++ "m " ++ jsNumStr (some secPart) ++ "s"
    else
      let hours : ℤ := ⌊q / 3600⌋
      let minPart : ℤ := ⌊(q - 3600 * (⌊q / 3600⌋ : ℚ)) / 60⌋
      toString hours ++ "h " ++ toString minPart ++ "m"

/-- Result of an admission check (`{allowed, reason?}`; the echoed `stats`
field is returned separately by `canRequest`). -/
structure CheckResult where
  allowed : Bool
  reason : Option String
deriving DecidableEq, Repr

/-- The request-budget and token-budget checks of `canRequestGroq`, i.e. the
part after the `retry-after` check. -/
def groqBudgetChecks (state : RateLimitState) (estimatedTokens now : ℚ) : CheckResult :=
  if jsLe state.remainingRequestsDay (some 0) ∧ jsLt (some now) state.resetRequestsAt then
    let waitSec : ℤ := ⌈(jsVal state.resetRequestsAt - now) / 1000⌉
    ⟨false, some ("Daily requests exhausted: Reset in " ++ formatDuration (some (waitSec : ℚ)))⟩
  else if jsLt state.remainingTokensMinute (some estimatedTokens) ∧
      jsLt (some now) state.resetTokensAt then
    let waitSec : ℤ := ⌈(jsVal state.resetTokensAt - now) / 1000⌉
    ⟨false, some ("Token limit (TPM): Reset in " ++ toString waitSec ++ "s")⟩
  else ⟨true, none⟩

/-- `canRequestGroq`: retry-after cooldown, then daily requests, then TPM. -/
def canRequestGroq (stats : UsageStats) (estimatedTokens now : ℚ) : CheckResult :=
  let state := stats.rateLimitState
  match state.retryAfter with
  | some r =>
    -- `state.retryAfter && state.lastUpdated + state.retryAfter * 1000 > now`
    -- (0 and NaN are falsy; the NaN case is the `none` branch below)
    if r ≠ 0 ∧ state.lastUpdated + r * 1000 > now then
      let waitSec : ℤ := ⌈r - (now - state.lastUpdated) / 1000⌉
      ⟨false, some ("Rate limited: Retry after " ++ toString waitSec ++ "s")⟩
    else groqBudgetChecks state estimatedTokens now
  | none => groqBudgetChecks state estimatedTokens now

/-- `canRequestCerebras`: daily requests, then TPM; the `now` argument is
unused in the source (`_now`), both guards compare the stored seconds against
0. -/
def canRequestCerebras (stats : UsageStats) (estimatedTokens _now : ℚ) : CheckResult :=
  let state := stats.rateLimitState
  if jsLe state.remainingRequestsDay (some 0) ∧ jsLt (some 0) state.resetRequestsDaySeconds then
    ⟨false, some ("Daily requests exhausted: Reset in "
      ++ formatDuration (jsCeil state.resetRequestsDaySeconds))⟩
  else if jsLt state.remainingTokensMinute (some estimatedTokens) ∧
      jsLt (some 0) state.resetTokensMinuteSeconds then
    ⟨false, some ("Token limit (TPM): Reset in "
      ++ jsNumStr (jsCeil state.resetTokensMinuteSeconds) ++ "s")⟩
  else ⟨true, none⟩

/-- `canRequest` (public): dispatch on the provider after `getStats`. -/
def canRequest (t : Tracker) (model : ModelConfig) (estimatedTokens now dayStart : ℚ) :
    CheckResult × Tracker :=
  let s := getStats t model dayStart
  match model.provider with
  | .groq => (canRequestGroq s.1 estimatedTokens now, s.2)
  | .cerebras => (canRequestCerebras s.1 estimatedTokens now, s.2)

/-- The optimistic decrement `recordRequest` applies to the rate-limit state.
Both provider branches of the source perform this identical update on the
shared fields, so no dispatch on the provider is needed. -/
def recordRequestState (state : RateLimitState) (inputTokens : ℚ) : RateLimitState :=
  { state with
    remainingRequestsDay :=
      if jsLt (some 0) state.remainingRequestsDay then jsSub state.remainingRequestsDay (some 1)
      else state.remainingRequestsDay
    remainingTokensMinute :=
      if jsLt (some 0) state.remainingTokensMinute then
        jsSub state.remainingTokensMinute (some inputTokens)
      else state.remainingTokensMinute }

/-- The stats-level effect of `recordRequest`. -/
def recordRequestStats (stats : UsageStats) (inputTokens : ℚ) : UsageStats :=
  { stats with
    requestsToday := stats.requestsToday + 1
    tokensToday := stats.tokensToday + inputTokens
    rateLimitState := recordRequestState stats.rateLimitState inputTokens }

/-- `recordRequest`: optimistic counters update before headers arrive (the
provider argument is unused in the source). -/
def recordRequest (t : Tracker) (model : ModelConfig) (_provider : ProviderName)
    (inputTokens dayStart : ℚ) : Tracker :=
  let s := getStats t model dayStart
  setKey s.2 model.id (recordRequestStats s.1 inputTokens)

/-- Return shape of `getRemainingCapacity`. -/
structure RemainingCapacity where
  requests : JsNum
  tokens : JsNum
  requestsResetAt : JsNum
  tokensResetAt : JsNum
deriving DecidableEq, Repr

/-- `getRemainingCapacity`. -/
def getRemainingCapacity (t : Tracker) (model : ModelConfig) (now dayStart : ℚ) :
    RemainingCapacity × Tracker :=
  let s := getStats t model dayStart
  let state := s.1.rateLimitState
  match model.provider with
  | .groq =>
    (⟨state.remainingRequestsDay, state.remainingTokensMinute,
      state.resetRequestsAt, state.resetTokensAt⟩, s.2)
  | .cerebras =>
    (⟨state.remainingRequestsDay, state.remainingTokensMinute,
      jsAdd (some now) (jsMul state.resetRequestsDaySeconds (some 1000)),
      jsAdd (some now) (jsMul state.resetTokensMinuteSeconds (some 1000))⟩, s.2)

/-- Return shape of `getRateLimitInfo`. -/
structure RateLimitInfo where
  provider : ProviderName
  remainingRequests : JsNum
  remainingTokens : JsNum
  limitRequests : JsNum
  limitTokens : JsNum
  resetInfo : String
  lastUpdated : ℚ
deriving DecidableEq, Repr

/-- `getRateLimitInfo`. -/
def getRateLimitInfo (t : Tracker) (model : ModelConfig) (now dayStart : ℚ) :
    RateLimitInfo × Tracker :=
  let s := getStats t model dayStart
  let state := s.1.rateLimitState
  match model.provider with
  | .groq =>
    let reqResetIn :=
      if jsLt (some now) state.resetRequestsAt then
        formatDuration (some ((⌈(jsVal state.resetRequestsAt - now) / 1000⌉ : ℤ) : ℚ))
      else "now"
    let tokResetIn :=
      if jsLt (some now) state.resetTokensAt then
        toString (⌈(jsVal state.resetTokensAt - now) / 1000⌉ : ℤ) ++ "s"
      else "now"
    (⟨.groq, state.remainingRequestsDay, state.remainingTokensMinute,
      state.limitRequestsDay, state.limitTokensMinute,
      "Requests reset: " ++ reqResetIn ++ ", Tokens reset: " ++ tokResetIn,
      state.lastUpdated⟩, s.2)
  | .cerebras =>
    (⟨.cerebras, state.remainingRequestsDay, state.remainingTokensMinute,
      state.limitRequestsDay, state.limitTokensMinute,
      "Requests reset: " ++ formatDuration (jsCeil state.resetRequestsDaySeconds)
        ++ ", Tokens reset: " ++ jsNumStr (jsCeil state.resetTokensMinuteSeconds) ++ "s",
      state.lastUpdated⟩, s.2)

/-- Rotation strategy of the model manager. -/
inductive RotationStrategy
  | roundRobin
  | random
  | leastUsed
deriving DecidableEq, Repr

/-- A chat message; `content` is `none` when it is not a string (the source
guards with `typeof m.content === 'string'`). -/
structure ChatMessage where
  role : String
  content : Option String
deriving DecidableEq, Repr

/-- `estimateTokens`: total character length of all string message contents,
divided by 4 and rounded up (`Math.ceil`). -/
def estimateTokens (messages : List ChatMessage) : ℤ :=
  let totalChars := messages.foldl (fun sum m => sum + ((m.content.getD "").length : ℤ)) 0
  ⌈(totalChars : ℚ) / 4⌉

/-- Mutable state of a `ModelManager` instance.  The candidate list is fixed
after construction (the constructor rejects an empty list). -/
structure ManagerState where
  models : List ModelConfig
  currentIndex : ℕ
  strategy : RotationStrategy
  autoFallback : Bool
  usageCount : List (String × ℕ)
deriving DecidableEq, Repr

/-- Placeholder for the non-null assertions `this.models[i]!`; never reached
when `currentIndex < models.length` and the list is non-empty. -/
def dummyModel : ModelConfig :=
  { id := "", name := "", provider := .groq, enabled := false, limits := .groq ⟨0, 0, 0, 0⟩ }

/-- `this.usageCount.get(id) ?? 0`. -/
def countOf (usage : List (String × ℕ)) (id : String) : ℕ :=
  (List.lookup id usage).getD 0

/-- `selectByStrategy`.  `Math.random()` draws are supplied by an oracle
stream `rng` (each entry in `[0,1)`); JS `Array.prototype.sort` with the
numeric comparator `aCount - bCount` is a stable ascending sort, modelled as a
stable insertion sort. -/
def selectByStrategy (mgr : ManagerState) (rng : List ℚ) :
    ModelConfig × ManagerState × List ℚ :=
  match mgr.strategy with
  | .roundRobin =>
    let model := mgr.models.getD mgr.currentIndex dummyModel
    (model, { mgr with currentIndex := (mgr.currentIndex + 1) % mgr.models.length }, rng)
  | .random =>
    let r := rng.headD 0
    (mgr.models.getD (⌊r * (mgr.models.length : ℚ)⌋).toNat dummyModel, mgr, rng.tail)
  | .leastUsed =>
    let sorted := List.insertionSort
      (fun a b => countOf mgr.usageCount a.id ≤ countOf mgr.usageCount b.id) mgr.models
    (sorted.getD 0 dummyModel, mgr, rng)

/-- The skip-list entry `` `${model.provider}/${model.id}: ${check.reason}` ``. -/
def skipEntry (model : ModelConfig) (reason : Option String) : String :=
  model.provider.str ++ "/" ++ model.id ++ ": " ++ reason.getD "undefined"

/-- Outcome of `getNextModel`; the two thrown `Error`s are modelled as the
`rateLimited` (auto-fallback disabled) and `allExhausted` constructors. -/
inductive NextModelResult
  | ok (model : ModelConfig) (skipped : List String)
  | rateLimited (message : String)
  | allExhausted (skipped : List String)
deriving DecidableEq, Repr

/-- The message of the final `throw` of `getNextModel`. -/
def allExhaustedMessage (skipped : List String) : String :=
  "All models rate limited:\n" ++ String.intercalate "\n" skipped

/-- The `while (attempts < this.models.length)` loop of `getNextModel`; `fuel`
is `models.length - attempts`, which strictly decreases on every non-returning
iteration. -/
def getNextModelGo (est now dayStart : ℚ) :
    ℕ → ManagerState → List ℚ → Tracker → List String →
    NextModelResult × ManagerState × List ℚ × Tracker
  | 0, mgr, rng, t, skipped => (.allExhausted skipped, mgr, rng, t)
  | fuel + 1, mgr, rng, t, skipped =>
    let sel := selectByStrategy mgr rng
    let model := sel.1
    let mgr1 := sel.2.1
    let rng1 := sel.2.2
    let ck := canRequest t model est now dayStart
    if ck.1.allowed then
      (.ok model skipped,
       { mgr1 with
          usageCount := setKey mgr1.usageCount model.id (countOf mgr1.usageCount model.id + 1) },
       rng1, ck.2)
    else if mgr1.autoFallback then
      getNextModelGo est now dayStart fuel mgr1 rng1 ck.2 (skipped ++ [skipEntry model ck.1.reason])
    else
      (.rateLimited ("Model " ++ model.id ++ " rate limited: " ++ ck.1.reason.getD "undefined"),
       mgr1, rng1, ck.2)

/-- `getNextModel`: estimate the token cost, then walk candidates until one is
admitted or all are exhausted. -/
def getNextModel (mgr : ManagerState) (messages : List ChatMessage) (rng : List ℚ)
    (t : Tracker) (now dayStart : ℚ) :
    NextModelResult × ManagerState × List ℚ × Tracker :=
  getNextModelGo ((estimateTokens messages : ℤ) : ℚ) now dayStart mgr.models.length mgr rng t []

/-- Total character length of all string message contents (for stating the
token-estimate claim). -/
def totalCharsOf (messages : List ChatMessage) : ℕ :=
  (messages.map (fun m => (m.content.getD "").length)).sum

/-- The deny classes named by the admission-order claim. -/
inductive DenyStep
  | cooldown
  | requests
  | tokens
deriving DecidableEq, Repr

/-- An explicit `retryAfter` cooldown is active: a nonzero value is present
and the window `lastUpdated + retryAfter·1000` extends beyond `now` (exactly
the condition of the first Groq check). -/
def cooldownActive (state : RateLimitState) (now : ℚ) : Bool :=
  match state.retryAfter with
  | some r => decide (r ≠ 0) && decide (state.lastUpdated + r * 1000 > now)
  | none => false

/-- Written from the words of the admission-order claim (C2), for the
refinement check: (1) an explicit active `retryAfter` cooldown denies; (2) a
request budget ≤ 0 whose reset instant is still in the future denies; (3) a
token budget below the estimated cost whose reset instant is in the future
denies; (4) otherwise allow. -/
def claimOrderGroq (state : RateLimitState) (est now : ℚ) : Option DenyStep :=
  if cooldownActive state now then
    some .cooldown
  else if jsLe state.remainingRequestsDay (some 0) ∧ jsLt (some now) state.resetRequestsAt then
    some .requests
  else if jsLt state.remainingTokensMinute (some est) ∧ jsLt (some now) state.resetTokensAt then
    some .tokens
  else none

/-- The same claim wording applied to a Cerebras-shaped state, whose stored
reset encoding is seconds-until-reset measured at `lastUpdated`; the claim's
"reset instant is still in the future" therefore reads as
`lastUpdated + seconds·1000 > now`. -/
def claimOrderCerebras (state : RateLimitState) (est now : ℚ) : Option DenyStep :=
  if cooldownActive state now then
    some .cooldown
  else if jsLe state.remainingRequestsDay (some 0) ∧
      jsLt (some now) (jsAdd (some state.lastUpdated) (jsMul state.resetRequestsDaySeconds (some 1000))) then
    some .requests
  else if jsLt state.remainingTokensMinute (some est) ∧
      jsLt (some now) (jsAdd (some state.lastUpdated) (jsMul state.resetTokensMinuteSeconds (some 1000))) then
    some .tokens
  else none

/-- What `canRequestCerebras` actually checks, written from the amended claim:
no cooldown step, and "reset pending" means the stored seconds-until-reset
value is positive, independent of the current time. -/
def amendedOrderCerebras (state : RateLimitState) (est : ℚ) : Option DenyStep :=
  if jsLe state.remainingRequestsDay (some 0) ∧ jsLt (some 0) state.resetRequestsDaySeconds then
    some .requests
  else if jsLt state.remainingTokensMinute (some est) ∧
      jsLt (some 0) state.resetTokensMinuteSeconds then
    some .tokens
  else none

/-! Infrastructure lemmas about the association-list map and `getStats`. -/

theorem lookup_setKey_self {α : Type} (l : List (String × α)) (k : String) (v : α) :
    List.lookup k (setKey l k v) = some v := by
  induction l with
  | nil => simp [setKey, List.lookup]
  | cons p rest ih =>
    rcases p with ⟨k', v'⟩
    by_cases h : k = k'
    · simp [setKey, h, List.lookup]
    · have hb : (k == k') = false := beq_eq_false_iff_ne.mpr h
      simp [setKey, h, List.lookup, hb, ih]

theorem lookup_setKey_ne {α : Type} (l : List (String × α)) (k k' : String) (v : α)
    (h : k' ≠ k) : List.lookup k' (setKey l k v) = List.lookup k' l := by
  have hb : (k' == k) = false := beq_eq_false_iff_ne.mpr h
  induction l with
  | nil => simp [setKey, List.lookup, hb]
  | cons p rest ih =>
    rcases p with ⟨k0, v0⟩
    by_cases hk : k = k0
    · subst hk
      simp [setKey, List.lookup, hb]
    · simp only [setKey, if_neg hk, List.lookup]
      by_cases hk' : k' = k0
      · simp [hk']
      · have hb' : (k' == k0) = false := beq_eq_false_iff_ne.mpr hk'
        simp [hb', ih]

theorem setKey_of_lookup_eq {α : Type} (l : List (String × α)) (k : String) (v : α)
    (h : List.lookup k l = some v) : setKey l k v = l := by
  induction l with
  | nil => simp [List.lookup] at h
  | cons p rest ih =>
    rcases p with ⟨k0, v0⟩
    by_cases hk : k = k0
    · subst hk
      simp only [List.lookup, beq_self_eq_true] at h
      simp only [Option.some.injEq] at h
      simp [setKey, h]
    · have hb : (k == k0) = false := beq_eq_false_iff_ne.mpr hk
      simp only [List.lookup, hb] at h
      simp [setKey, hk, ih h]

theorem rollDay_dayStart (s : UsageStats) (d : ℚ) : (rollDay s d).dayStart = d := by
  unfold rollDay
  split
  · rfl
  · simp_all

theorem rollDay_of_dayStart (s : UsageStats) (d : ℚ) (h : s.dayStart = d) : rollDay s d = s := by
  simp [rollDay, h]

theorem getStats_fst_dayStart (t : Tracker) (m : ModelConfig) (d : ℚ) :
    ((getStats t m d).1).dayStart = d := by
  unfold getStats
  exact rollDay_dayStart _ d

theorem getStats_snd (t : Tracker) (m : ModelConfig) (d : ℚ) :
    (getStats t m d).2 = setKey t m.id (getStats t m d).1 := rfl

theorem getStats_idem_fst (t : Tracker) (m : ModelConfig) (d : ℚ) :
    (getStats (getStats t m d).2 m d).1 = (getStats t m d).1 := by
  unfold getStats
  simp only [lookup_setKey_self]
  exact rollDay_of_dayStart _ _ (rollDay_dayStart _ _)

theorem getStats_idem_snd (t : Tracker) (m : ModelConfig) (d : ℚ) :
    (getStats (getStats t m d).2 m d).2 = (getStats t m d).2 := by
  conv_lhs => rw [getStats_snd]
  rw [getStats_idem_fst]
  exact setKey_of_lookup_eq _ _ _ (by rw [getStats_snd]; exact lookup_setKey_self _ _ _)

theorem getStats_frame_fst (t : Tracker) (m m' : ModelConfig) (d : ℚ) (h : m'.id ≠ m.id) :
    (getStats (getStats t m d).2 m' d).1 = (getStats t m' d).1 := by
  conv_lhs => rw [getStats_snd]
  unfold getStats
  rw [lookup_setKey_ne _ _ _ _ h]

/-- The first component of `canRequest` depends only on the stats entry that
`getStats` yields for the model. -/
theorem canRequest_fst_eq_of_getStats (t t' : Tracker) (m : ModelConfig) (e n d : ℚ)
    (h : (getStats t m d).1 = (getStats t' m d).1) :
    (canRequest t m e n d).1 = (canRequest t' m e n d).1 := by
  unfold canRequest
  rcases m.provider <;> simp [h]

/-- An admission check leaves every later admission-check result unchanged:
the tracker update of `canRequest` is only the `getStats` get-or-create write,
which yields the same entry on a repeated access and does not touch entries of
other model ids. -/
theorem canRequest_fst_stable (t : Tracker) (m m' : ModelConfig) (e e' n d : ℚ)
    (h : m' = m ∨ m'.id ≠ m.id) :
    (canRequest (canRequest t m e n d).2 m' e' n d).1 = (canRequest t m' e' n d).1 := by
  have hsnd : (canRequest t m e n d).2 = (getStats t m d).2 := by
    unfold canRequest
    rcases m.provider <;> rfl
  rw [hsnd]
  rcases h with h | h
  · subst h
    exact canRequest_fst_eq_of_getStats _ _ _ _ _ _ (getStats_idem_fst t m' d)
  · exact canRequest_fst_eq_of_getStats _ _ _ _ _ _ (getStats_frame_fst t m m' d h)

/-! Branch-reduction lemmas for the admission checks. -/

theorem canRequestGroq_eq_budget (stats : UsageStats) (est now : ℚ)
    (h : ∀ r, stats.rateLimitState.retryAfter = some r →
      ¬(r ≠ 0 ∧ stats.rateLimitState.lastUpdated + r * 1000 > now)) :
    canRequestGroq stats est now = groqBudgetChecks stats.rateLimitState est now := by
  unfold canRequestGroq
  rcases hra : stats.rateLimitState.retryAfter with - | r
  · simp only [hra]
  · simp only [hra]
    rw [if_neg (h r hra)]

theorem canRequestGroq_retry (stats : UsageStats) (est now r : ℚ)
    (hra : stats.rateLimitState.retryAfter = some r)
    (h0 : r ≠ 0 ∧ stats.rateLimitState.lastUpdated + r * 1000 > now) :
    canRequestGroq stats est now
      = ⟨false, some ("Rate limited: Retry after "
          ++ toString (⌈r - (now - stats.rateLimitState.lastUpdated) / 1000⌉ : ℤ) ++ "s")⟩ := by
  unfold canRequestGroq
  simp only [hra]
  rw [if_pos h0]

theorem groqBudgetChecks_requests (state : RateLimitState) (est now : ℚ)
    (h1 : jsLe state.remainingRequestsDay (some 0) ∧ jsLt (some now) state.resetRequestsAt) :
    groqBudgetChecks state est now
      = ⟨false, some ("Daily requests exhausted: Reset in "
          ++ formatDuration (some ((⌈(jsVal state.resetRequestsAt - now) / 1000⌉ : ℤ) : ℚ)))⟩ := by
  unfold groqBudgetChecks
  rw [if_pos h1]

theorem groqBudgetChecks_tokens (state : RateLimitState) (est now : ℚ)
    (h1 : ¬(jsLe state.remainingRequestsDay (some 0) ∧ jsLt (some now) state.resetRequestsAt))
    (h2 : jsLt state.remainingTokensMinute (some est) ∧ jsLt (some now) state.resetTokensAt) :
    groqBudgetChecks state est now
      = ⟨false, some ("Token limit (TPM): Reset in "
          ++ toString (⌈(jsVal state.resetTokensAt - now) / 1000⌉ : ℤ) ++ "s")⟩ := by
  unfold groqBudgetChecks
  rw [if_neg h1, if_pos h2]

theorem groqBudgetChecks_allow (state : RateLimitState) (est now : ℚ)
    (h1 : ¬(jsLe state.remainingRequestsDay (some 0) ∧ jsLt (some now) state.resetRequestsAt))
    (h2 : ¬(jsLt state.remainingTokensMinute (some est) ∧ jsLt (some now) state.resetTokensAt)) :
    groqBudgetChecks state est now = ⟨true, none⟩ := by
  unfold groqBudgetChecks
  rw [if_neg h1, if_neg h2]

theorem canRequestCerebras_requests (stats : UsageStats) (est now : ℚ)
    (h1 : jsLe stats.rateLimitState.remainingRequestsDay (some 0)
        ∧ jsLt (some 0) stats.rateLimitState.resetRequestsDaySeconds) :
    canRequestCerebras stats est now
      = ⟨false, some ("Daily requests exhausted: Reset in "
          ++ formatDuration (jsCeil stats.rateLimitState.resetRequestsDaySeconds))⟩ := by
  unfold canRequestCerebras
  rw [if_pos h1]

theorem canRequestCerebras_tokens (stats : UsageStats) (est now : ℚ)
    (h1 : ¬(jsLe stats.rateLimitState.remainingRequestsDay (some 0)
        ∧ jsLt (some 0) stats.rateLimitState.resetRequestsDaySeconds))
    (h2 : jsLt stats.rateLimitState.remainingTokensMinute (some est)
        ∧ jsLt (some 0) stats.rateLimitState.resetTokensMinuteSeconds) :
    canRequestCerebras stats est now
      = ⟨false, some ("Token limit (TPM): Reset in "
          ++ jsNumStr (jsCeil stats.rateLimitState.resetTokensMinuteSeconds) ++ "s")⟩ := by
  unfold canRequestCerebras
  rw [if_neg h1, if_pos h2]

theorem canRequestCerebras_allow (stats : UsageStats) (est now : ℚ)
    (h1 : ¬(jsLe stats.rateLimitState.remainingRequestsDay (some 0)
        ∧ jsLt (some 0) stats.rateLimitState.resetRequestsDaySeconds))
    (h2 : ¬(jsLt stats.rateLimitState.remainingTokensMinute (some est)
        ∧ jsLt (some 0) stats.rateLimitState.resetTokensMinuteSeconds)) :
    canRequestCerebras stats est now = ⟨true, none⟩ := by
  unfold canRequestCerebras
  rw [if_neg h1, if_neg h2]

/-! Claim C10. -/

/-- C10: `updateFromHeaders` called for a model id that has no usage-stats
entry is a silent no-op — it creates no state, raises no error (the embedding
is a total function), and the authoritative header values are dropped. -/
theorem c10_unknown_model_noop (t : Tracker) (modelId : String) (provider : ProviderName)
    (headers : HeadersM) (now : ℚ) (h : List.lookup modelId t = none) :
    updateFromHeaders t modelId provider headers now = t := by
  unfold updateFromHeaders
  rw [h]

/-- Witness for C10 at a concrete input: the empty tracker has no entry for
`"m"`, and reconciliation with a fully populated header set leaves it empty. -/
theorem c10_unknown_model_noop_witness :
    List.lookup "m" ([] : Tracker) = none ∧
      updateFromHeaders [] "m" .groq
        [("x-ratelimit-remaining-requests", "7"), ("x-ratelimit-reset-requests", "5s")] 3 = [] :=
  ⟨rfl, c10_unknown_model_noop [] "m" .groq
    [("x-ratelimit-remaining-requests", "7"), ("x-ratelimit-reset-requests", "5s")] 3 rfl⟩

/-! Claim C7. -/

theorem chars_foldl (messages : List ChatMessage) (init : ℤ) :
    messages.foldl (fun sum m => sum + ((m.content.getD "").length : ℤ)) init
      = init + (totalCharsOf messages : ℤ) := by
  induction messages generalizing init with
  | nil => simp [totalCharsOf]
  | cons m ms ih =>
    simp only [List.foldl_cons, ih, totalCharsOf, List.map_cons, List.sum_cons]
    push_cast
    ring

/-- C7: the router's estimated token cost is the ceiling of the total
character length of all string message contents divided by 4 (equivalently,
`(totalChars + 3) / 4` in integer arithmetic); a message set with combined
content length 400 yields exactly 100. -/
theorem c7_estimate_tokens :
    (∀ messages : List ChatMessage,
        estimateTokens messages = (((totalCharsOf messages + 3) / 4 : ℕ) : ℤ)) ∧
      estimateTokens [⟨"user", some (String.mk (List.replicate 400 'a'))⟩] = 100 := by
  have hmain : ∀ messages : List ChatMessage,
      estimateTokens messages = (((totalCharsOf messages + 3) / 4 : ℕ) : ℤ) := by
    intro messages
    unfold estimateTokens
    rw [chars_foldl]
    rw [show ((0 : ℤ) + (totalCharsOf messages : ℤ)) = (totalCharsOf messages : ℤ) by ring]
    set n := totalCharsOf messages with hn
    rw [Int.ceil_eq_iff]
    have hub : 4 * ((n + 3) / 4) ≤ n + 3 := by omega
    have hlb : n ≤ 4 * ((n + 3) / 4) := by omega
    have hub' : 4 * (((n + 3) / 4 : ℕ) : ℚ) ≤ (n : ℚ) + 3 := by exact_mod_cast hub
    have hlb' : (n : ℚ) ≤ 4 * (((n + 3) / 4 : ℕ) : ℚ) := by exact_mod_cast hlb
    simp only [Int.cast_natCast]
    constructor
    · linarith
    · linarith
  refine ⟨hmain, ?_⟩
  rw [hmain]
  norm_num [totalCharsOf]

/-! Claim C3. -/

/-- C3: reconciliation fully overwrites.  For every prior rate-limit state —
in particular any state reached by optimistic `recordRequest` decrements — an
authoritative header snapshot that supplies the remaining, limit and reset
values overwrites those six fields with the reported values, for both provider
families; the result does not depend on the prior counters. -/
theorem c3_reconcile_overwrites (state stateC : RateLimitState) (h hc : HeadersM) (now : ℚ)
    (h1 : headerTruthy (hGet h "x-ratelimit-remaining-requests"))
    (h2 : headerTruthy (hGet h "x-ratelimit-remaining-tokens"))
    (h3 : headerTruthy (hGet h "x-ratelimit-limit-requests"))
    (h4 : headerTruthy (hGet h "x-ratelimit-limit-tokens"))
    (h5 : headerTruthy (hGet h "x-ratelimit-reset-requests"))
    (h6 : headerTruthy (hGet h "x-ratelimit-reset-tokens"))
    (c1 : headerTruthy (hGet hc "x-ratelimit-remaining-requests-day"))
    (c2 : headerTruthy (hGet hc "x-ratelimit-remaining-tokens-minute"))
    (c3 : headerTruthy (hGet hc "x-ratelimit-limit-requests-day"))
    (c4 : headerTruthy (hGet hc "x-ratelimit-limit-tokens-minute"))
    (c5 : headerTruthy (hGet hc "x-ratelimit-reset-requests-day"))
    (c6 : headerTruthy (hGet hc "x-ratelimit-reset-tokens-minute")) :
    (updateFromGroqHeaders state h now).remainingRequestsDay
        = parseIntJs ((hGet h "x-ratelimit-remaining-requests").getD "") ∧
    (updateFromGroqHeaders state h now).remainingTokensMinute
        = parseIntJs ((hGet h "x-ratelimit-remaining-tokens").getD "") ∧
    (updateFromGroqHeaders state h now).limitRequestsDay
        = parseIntJs ((hGet h "x-ratelimit-limit-requests").getD "") ∧
    (updateFromGroqHeaders state h now).limitTokensMinute
        = parseIntJs ((hGet h "x-ratelimit-limit-tokens").getD "") ∧
    (updateFromGroqHeaders state h now).resetRequestsAt
        = some (now + parseGroqDuration ((hGet h "x-ratelimit-reset-requests").getD "")) ∧
    (updateFromGroqHeaders state h now).resetTokensAt
        = some (now + parseGroqDuration ((hGet h "x-ratelimit-reset-tokens").getD "")) ∧
    (updateFromGroqHeaders state h now).lastUpdated = now ∧
    (updateFromCerebrasHeaders stateC hc now).remainingRequestsDay
        = parseIntJs ((hGet hc "x-ratelimit-remaining-requests-day").getD "") ∧
    (updateFromCerebrasHeaders stateC hc now).remainingTokensMinute
        = parseIntJs ((hGet hc "x-ratelimit-remaining-tokens-minute").getD "") ∧
    (updateFromCerebrasHeaders stateC hc now).limitRequestsDay
        = parseIntJs ((hGet hc "x-ratelimit-limit-requests-day").getD "") ∧
    (updateFromCerebrasHeaders stateC hc now).limitTokensMinute
        = parseIntJs ((hGet hc "x-ratelimit-limit-tokens-minute").getD "") ∧
    (updateFromCerebrasHeaders stateC hc now).resetRequestsDaySeconds
        = parseFloatJs ((hGet hc "x-ratelimit-reset-requests-day").getD "") ∧
    (updateFromCerebrasHeaders stateC hc now).resetTokensMinuteSeconds
        = parseFloatJs ((hGet hc "x-ratelimit-reset-tokens-minute").getD "") ∧
    (updateFromCerebrasHeaders stateC hc now).lastUpdated = now := by
  unfold updateFromGroqHeaders updateFromCerebrasHeaders
  simp [h1, h2, h3, h4, h5, h6, c1, c2, c3, c4, c5, c6]

/-- A Groq-shaped state after some optimistic decrements. -/
def decrementedGroqState : RateLimitState :=
  { remainingRequestsDay := some 997, remainingTokensMinute := some 11500,
    limitRequestsDay := some 1000, limitTokensMinute := some 12000,
    resetRequestsAt := some 0, resetTokensAt := some 0,
    resetRequestsDaySeconds := none, resetTokensMinuteSeconds := none,
    retryAfter := none, lastUpdated := 0 }

/-- A Cerebras-shaped state after some optimistic decrements. -/
def decrementedCerebrasState : RateLimitState :=
  { remainingRequestsDay := some 14399, remainingTokensMinute := some 59000,
    limitRequestsDay := some 14400, limitTokensMinute := some 60000,
    resetRequestsAt := none, resetTokensAt := none,
    resetRequestsDaySeconds := some 0, resetTokensMinuteSeconds := some 0,
    retryAfter := none, lastUpdated := 0 }

/-- A fully populated Groq snapshot. -/
def groqSnapshotHeaders : HeadersM :=
  [("x-ratelimit-remaining-requests", "900"), ("x-ratelimit-remaining-tokens", "7000"),
   ("x-ratelimit-limit-requests", "1000"), ("x-ratelimit-limit-tokens", "12000"),
   ("x-ratelimit-reset-requests", "5s"), ("x-ratelimit-reset-tokens", "2s")]

/-- A fully populated Cerebras snapshot. -/
def cerebrasSnapshotHeaders : HeadersM :=
  [("x-ratelimit-remaining-requests-day", "14000"),
   ("x-ratelimit-remaining-tokens-minute", "50000"),
   ("x-ratelimit-limit-requests-day", "14400"),
   ("x-ratelimit-limit-tokens-minute", "60000"),
   ("x-ratelimit-reset-requests-day", "60"),
   ("x-ratelimit-reset-tokens-minute", "30")]

/-- Witness for C3 at a concrete input: a full snapshot overwrites the
decremented counters with the reported values. -/
theorem c3_reconcile_overwrites_witness :
    (updateFromGroqHeaders decrementedGroqState groqSnapshotHeaders 100).remainingRequestsDay
        = parseIntJs "900" ∧
    (updateFromCerebrasHeaders decrementedCerebrasState cerebrasSnapshotHeaders 100).resetRequestsDaySeconds
        = parseFloatJs "60" :=
  have h := c3_reconcile_overwrites decrementedGroqState decrementedCerebrasState
    groqSnapshotHeaders cerebrasSnapshotHeaders 100 (by decide) (by decide) (by decide)
    (by decide) (by decide) (by decide) (by decide) (by decide) (by decide) (by decide)
    (by decide) (by decide)
  ⟨h.1, h.2.2.2.2.2.2.2.2.2.2.2.1⟩

/-! Claim C8. -/

/-- Per-field behaviour of `updateFromGroqHeaders`. -/
theorem updateFromGroqHeaders_fields (s : RateLimitState) (h : HeadersM) (now : ℚ) :
    (updateFromGroqHeaders s h now).remainingRequestsDay
      = (if headerTruthy (hGet h "x-ratelimit-remaining-requests")
         then parseIntJs ((hGet h "x-ratelimit-remaining-requests").getD "")
         else s.remainingRequestsDay) ∧
    (updateFromGroqHeaders s h now).remainingTokensMinute
      = (if headerTruthy (hGet h "x-ratelimit-remaining-tokens")
         then parseIntJs ((hGet h "x-ratelimit-remaining-tokens").getD "")
         else s.remainingTokensMinute) ∧
    (updateFromGroqHeaders s h now).limitRequestsDay
      = (if headerTruthy (hGet h "x-ratelimit-limit-requests")
         then parseIntJs ((hGet h "x-ratelimit-limit-requests").getD "")
         else s.limitRequestsDay) ∧
    (updateFromGroqHeaders s h now).limitTokensMinute
      = (if headerTruthy (hGet h "x-ratelimit-limit-tokens")
         then parseIntJs ((hGet h "x-ratelimit-limit-tokens").getD "")
         else s.limitTokensMinute) ∧
    (updateFromGroqHeaders s h now).resetRequestsAt
      = (if headerTruthy (hGet h "x-ratelimit-reset-requests")
         then some (now + parseGroqDuration ((hGet h "x-ratelimit-reset-requests").getD ""))
         else s.resetRequestsAt) ∧
    (updateFromGroqHeaders s h now).resetTokensAt
      = (if headerTruthy (hGet h "x-ratelimit-reset-tokens")
         then some (now + parseGroqDuration ((hGet h "x-ratelimit-reset-tokens").getD ""))
         else s.resetTokensAt) ∧
    (updateFromGroqHeaders s h now).retryAfter
      = (if headerTruthy (hGet h "retry-after")
         then parseIntJs ((hGet h "retry-after").getD "")
         else s.retryAfter) ∧
    (updateFromGroqHeaders s h now).lastUpdated = now := by
  exact ⟨rfl, rfl, rfl, rfl, rfl, rfl, rfl, rfl⟩

/-- Per-field behaviour of `updateFromCerebrasHeaders`. -/
theorem updateFromCerebrasHeaders_fields (s : RateLimitState) (h : HeadersM) (now : ℚ) :
    (updateFromCerebrasHeaders s h now).remainingRequestsDay
      = (if headerTruthy (hGet h "x-ratelimit-remaining-requests-day")
         then parseIntJs ((hGet h "x-ratelimit-remaining-requests-day").getD "")
         else s.remainingRequestsDay) ∧
    (updateFromCerebrasHeaders s h now).remainingTokensMinute
      = (if headerTruthy (hGet h "x-ratelimit-remaining-tokens-minute")
         then parseIntJs ((hGet h "x-ratelimit-remaining-tokens-minute").getD "")
         else s.remainingTokensMinute) ∧
    (updateFromCerebrasHeaders s h now).limitRequestsDay
      = (if headerTruthy (hGet h "x-ratelimit-limit-requests-day")
         then parseIntJs ((hGet h "x-ratelimit-limit-requests-day").getD "")
         else s.limitRequestsDay) ∧
    (updateFromCerebrasHeaders s h now).limitTokensMinute
      = (if headerTruthy (hGet h "x-ratelimit-limit-tokens-minute")
         then parseIntJs ((hGet h "x-ratelimit-limit-tokens-minute").getD "")
         else s.limitTokensMinute) ∧
    (updateFromCerebrasHeaders s h now).resetRequestsDaySeconds
      = (if headerTruthy (hGet h "x-ratelimit-reset-requests-day")
         then parseFloatJs ((hGet h "x-ratelimit-reset-requests-day").getD "")
         else s.resetRequestsDaySeconds) ∧
    (updateFromCerebrasHeaders s h now).resetTokensMinuteSeconds
      = (if headerTruthy (hGet h "x-ratelimit-reset-tokens-minute")
         then parseFloatJs ((hGet h "x-ratelimit-reset-tokens-minute").getD "")
         else s.resetTokensMinuteSeconds) ∧
    (updateFromCerebrasHeaders s h now).lastUpdated = now := by
  exact ⟨rfl, rfl, rfl, rfl, rfl, rfl, rfl⟩

/-- C8 (amended): reconciliation never raises an error (the embedding is a
total function); every rate-limit state field whose header is absent (missing
or empty) retains its prior value; but a malformed numeric header overwrites
the field with NaN (JS `parseInt`), and a malformed Groq reset duration
overwrites the reset instant with `now + 0` — malformed values are applied,
not ignored. -/
theorem c8_reconcile_stale_safe (state stateC : RateLimitState) (h hc : HeadersM) (now : ℚ) :
    (¬ headerTruthy (hGet h "x-ratelimit-remaining-requests") →
      (updateFromGroqHeaders state h now).remainingRequestsDay = state.remainingRequestsDay) ∧
    (¬ headerTruthy (hGet h "x-ratelimit-remaining-tokens") →
      (updateFromGroqHeaders state h now).remainingTokensMinute = state.remainingTokensMinute) ∧
    (¬ headerTruthy (hGet h "x-ratelimit-limit-requests") →
      (updateFromGroqHeaders state h now).limitRequestsDay = state.limitRequestsDay) ∧
    (¬ headerTruthy (hGet h "x-ratelimit-limit-tokens") →
      (updateFromGroqHeaders state h now).limitTokensMinute = state.limitTokensMinute) ∧
    (¬ headerTruthy (hGet h "x-ratelimit-reset-requests") →
      (updateFromGroqHeaders state h now).resetRequestsAt = state.resetRequestsAt) ∧
    (¬ headerTruthy (hGet h "x-ratelimit-reset-tokens") →
      (updateFromGroqHeaders state h now).resetTokensAt = state.resetTokensAt) ∧
    (¬ headerTruthy (hGet h "retry-after") →
      (updateFromGroqHeaders state h now).retryAfter = state.retryAfter) ∧
    (¬ headerTruthy (hGet hc "x-ratelimit-remaining-requests-day") →
      (updateFromCerebrasHeaders stateC hc now).remainingRequestsDay
        = stateC.remainingRequestsDay) ∧
    (¬ headerTruthy (hGet hc "x-ratelimit-remaining-tokens-minute") →
      (updateFromCerebrasHeaders stateC hc now).remainingTokensMinute
        = stateC.remainingTokensMinute) ∧
    (¬ headerTruthy (hGet hc "x-ratelimit-limit-requests-day") →
      (updateFromCerebrasHeaders stateC hc now).limitRequestsDay = stateC.limitRequestsDay) ∧
    (¬ headerTruthy (hGet hc "x-ratelimit-limit-tokens-minute") →
      (updateFromCerebrasHeaders stateC hc now).limitTokensMinute = stateC.limitTokensMinute) ∧
    (¬ headerTruthy (hGet hc "x-ratelimit-reset-requests-day") →
      (updateFromCerebrasHeaders stateC hc now).resetRequestsDaySeconds
        = stateC.resetRequestsDaySeconds) ∧
    (¬ headerTruthy (hGet hc "x-ratelimit-reset-tokens-minute") →
      (updateFromCerebrasHeaders stateC hc now).resetTokensMinuteSeconds
        = stateC.resetTokensMinuteSeconds) ∧
    (headerTruthy (hGet h "x-ratelimit-remaining-requests") →
      parseIntJs ((hGet h "x-ratelimit-remaining-requests").getD "") = none →
      (updateFromGroqHeaders state h now).remainingRequestsDay = none) ∧
    (headerTruthy (hGet h "x-ratelimit-reset-requests") →
      (updateFromGroqHeaders state h now).resetRequestsAt
        = some (now + parseGroqDuration ((hGet h "x-ratelimit-reset-requests").getD ""))) ∧
    (headerTruthy (hGet hc "x-ratelimit-reset-requests-day") →
      parseFloatJs ((hGet hc "x-ratelimit-reset-requests-day").getD "") = none →
      (updateFromCerebrasHeaders stateC hc now).resetRequestsDaySeconds = none) := by
  obtain ⟨g1, g2, g3, g4, g5, g6, g7, -⟩ := updateFromGroqHeaders_fields state h now
  obtain ⟨d1, d2, d3, d4, d5, d6, -⟩ := updateFromCerebrasHeaders_fields stateC hc now
  refine ⟨?_, ?_, ?_, ?_, ?_, ?_, ?_, ?_, ?_, ?_, ?_, ?_, ?_, ?_, ?_, ?_⟩
  · intro hx; rw [g1, if_neg hx]
  · intro hx; rw [g2, if_neg hx]
  · intro hx; rw [g3, if_neg hx]
  · intro hx; rw [g4, if_neg hx]
  · intro hx; rw [g5, if_neg hx]
  · intro hx; rw [g6, if_neg hx]
  · intro hx; rw [g7, if_neg hx]
  · intro hx; rw [d1, if_neg hx]
  · intro hx; rw [d2, if_neg hx]
  · intro hx; rw [d3, if_neg hx]
  · intro hx; rw [d4, if_neg hx]
  · intro hx; rw [d5, if_neg hx]
  · intro hx; rw [d6, if_neg hx]
  · intro hx hnan; rw [g1, if_pos hx, hnan]
  · intro hx; rw [g5, if_pos hx]
  · intro hx hnan; rw [d5, if_pos hx, hnan]

/-- C8 counterexample: the claim as stated is false — a malformed numeric
header does not leave the prior value untouched.  `parseInt("abc", 10)` is
NaN, and the remaining-requests field is overwritten with it. -/
theorem c8_counterexample :
    decrementedGroqState.remainingRequestsDay = some 997 ∧
    (updateFromGroqHeaders decrementedGroqState
        [("x-ratelimit-remaining-requests", "abc")] 50).remainingRequestsDay = none := by
  constructor
  · rfl
  · decide

/-- Witness for C8 at concrete inputs: an empty header set preserves every
field, and a malformed Groq reset duration is applied as `now + 0`, not
ignored. -/
theorem c8_reconcile_stale_safe_witness :
    (updateFromGroqHeaders decrementedGroqState [] 50).remainingRequestsDay
        = decrementedGroqState.remainingRequestsDay ∧
    (updateFromGroqHeaders decrementedGroqState [] 50).retryAfter
        = decrementedGroqState.retryAfter ∧
    (updateFromCerebrasHeaders decrementedCerebrasState [] 50).resetRequestsDaySeconds
        = decrementedCerebrasState.resetRequestsDaySeconds ∧
    (updateFromGroqHeaders decrementedGroqState
        [("x-ratelimit-reset-requests", "abc")] 50).resetRequestsAt
        = some (50 + parseGroqDuration "abc") := by
  obtain ⟨a1, -, -, -, -, -, a7, -, -, -, -, a12, -, -, -, -⟩ :=
    c8_reconcile_stale_safe decrementedGroqState decrementedCerebrasState [] [] 50
  obtain ⟨-, -, -, -, -, -, -, -, -, -, -, -, -, -, b15, -⟩ :=
    c8_reconcile_stale_safe decrementedGroqState decrementedCerebrasState
      [("x-ratelimit-reset-requests", "abc")] [] 50
  exact ⟨a1 (by decide), a7 (by decide), a12 (by decide), b15 (by decide)⟩

/-! Claim C1. -/

/-- C1 (amended): reset replenishment holds for Groq states only.  For a Groq
state whose remaining request counter is ≤ 0, once the stored reset instant is
no longer in the future the request check does not deny; if additionally no
cooldown is active and the token check does not deny, `canRequestGroq` allows.
For Cerebras states the admission decision is independent of the current time
(the source ignores its `_now` argument), and a stored zero counter with
positive stored seconds-until-reset keeps denying at every current time until
a reconciliation overwrites it. -/
theorem c1_reset_replenishment :
    (∀ (stats : UsageStats) (est now : ℚ),
        (∀ r, stats.rateLimitState.retryAfter = some r →
          ¬(r ≠ 0 ∧ stats.rateLimitState.lastUpdated + r * 1000 > now)) →
        jsLe stats.rateLimitState.remainingRequestsDay (some 0) →
        jsLt (some now) stats.rateLimitState.resetRequestsAt = false →
        ¬(jsLt stats.rateLimitState.remainingTokensMinute (some est)
            ∧ jsLt (some now) stats.rateLimitState.resetTokensAt) →
        canRequestGroq stats est now = ⟨true, none⟩) ∧
    (∀ (stats : UsageStats) (est now nowOther : ℚ),
        canRequestCerebras stats est now = canRequestCerebras stats est nowOther) ∧
    (∀ (stats : UsageStats) (est now : ℚ),
        jsLe stats.rateLimitState.remainingRequestsDay (some 0) →
        jsLt (some 0) stats.rateLimitState.resetRequestsDaySeconds →
        (canRequestCerebras stats est now).allowed = false) := by
  refine ⟨?_, ?_, ?_⟩
  · intro stats est now hcd hreq hrst htok
    rw [canRequestGroq_eq_budget stats est now hcd]
    exact groqBudgetChecks_allow _ est now (by simp [hrst]) htok
  · intro stats est now nowOther
    rfl
  · intro stats est now hreq hsec
    rw [canRequestCerebras_requests stats est now ⟨hreq, hsec⟩]

/-- A Cerebras stats entry holding a stale zero request counter whose stored
seconds-until-reset (10 s, measured at `lastUpdated = 0`) has long elapsed. -/
def staleCerebrasStats : UsageStats :=
  { provider := .cerebras,
    rateLimitState :=
      { remainingRequestsDay := some 0, remainingTokensMinute := some 60000,
        limitRequestsDay := some 14400, limitTokensMinute := some 60000,
        resetRequestsAt := none, resetTokensAt := none,
        resetRequestsDaySeconds := some 10, resetTokensMinuteSeconds := some 0,
        retryAfter := none, lastUpdated := 0 },
    requestsToday := 1, tokensToday := 0, dayStart := 0 }

/-- A Cerebras model configuration matching `staleCerebrasStats`. -/
def cModelStale : ModelConfig :=
  { id := "c-model", name := "C", provider := .cerebras, enabled := true,
    limits := .cerebras ⟨30, 900, 14400, 60000, 1000000, 1000000⟩ }

/-- C1 counterexample: the claim as stated is false for the Cerebras family.
At `now = 1000000` the current time is far past the reset instant
(`lastUpdated + 10 s = 10000`), no reconciliation has occurred, the stored
remaining request counter is 0 — and `canRequest` still denies. -/
theorem c1_counterexample :
    staleCerebrasStats.rateLimitState.lastUpdated
        + jsVal staleCerebrasStats.rateLimitState.resetRequestsDaySeconds * 1000 < 1000000 ∧
    staleCerebrasStats.rateLimitState.remainingRequestsDay = some 0 ∧
    (canRequest [("c-model", staleCerebrasStats)] cModelStale 0 1000000 0).1.allowed = false := by
  refine ⟨?_, rfl, ?_⟩
  · norm_num [staleCerebrasStats, jsVal]
  · decide

/-- Witness for C1 at concrete inputs: a Groq state with a zero counter whose
reset instant has passed is allowed again; the Cerebras check at two different
times agrees; the stale Cerebras state is denied. -/
theorem c1_reset_replenishment_witness :
    canRequestGroq
      { provider := .groq,
        rateLimitState :=
          { remainingRequestsDay := some 0, remainingTokensMinute := some 12000,
            limitRequestsDay := some 1000, limitTokensMinute := some 12000,
            resetRequestsAt := some 4000, resetTokensAt := some 0,
            resetRequestsDaySeconds := none, resetTokensMinuteSeconds := none,
            retryAfter := none, lastUpdated := 0 },
        requestsToday := 3, tokensToday := 0, dayStart := 0 } 0 5000 = ⟨true, none⟩ ∧
    canRequestCerebras staleCerebrasStats 0 7 = canRequestCerebras staleCerebrasStats 0 123456 ∧
    (canRequestCerebras staleCerebrasStats 0 1000000).allowed = false := by
  refine ⟨?_, ?_, ?_⟩
  · exact c1_reset_replenishment.1 _ 0 5000 (fun r hr => by cases hr) (by decide) (by decide)
      (by decide)
  · exact c1_reset_replenishment.2.1 staleCerebrasStats 0 7 123456
  · exact c1_reset_replenishment.2.2 staleCerebrasStats 0 1000000 (by decide) (by decide)

/-! Claim C2. -/

/-- C2 (amended): the Groq admission check evaluates its conditions exactly in
the claimed order — active `retryAfter` cooldown, then request budget ≤ 0 with
reset instant in the future, then token budget below the estimate with reset
instant in the future, otherwise allow — with the matching deny message class.
The Cerebras check performs no cooldown step, and its two budget conditions
read "reset pending" as the stored seconds-until-reset being positive,
independent of the current time. -/
theorem c2_admission_order :
    (∀ (stats : UsageStats) (est now : ℚ),
      match claimOrderGroq stats.rateLimitState est now with
      | none => canRequestGroq stats est now = ⟨true, none⟩
      | some .cooldown => (canRequestGroq stats est now).allowed = false ∧
          ∃ s, (canRequestGroq stats est now).reason
            = some ("Rate limited: Retry after " ++ s)
      | some .requests => (canRequestGroq stats est now).allowed = false ∧
          ∃ s, (canRequestGroq stats est now).reason
            = some ("Daily requests exhausted: Reset in " ++ s)
      | some .tokens => (canRequestGroq stats est now).allowed = false ∧
          ∃ s, (canRequestGroq stats est now).reason
            = some ("Token limit (TPM): Reset in " ++ s)) ∧
    (∀ (stats : UsageStats) (est now : ℚ),
      match amendedOrderCerebras stats.rateLimitState est with
      | none => canRequestCerebras stats est now = ⟨true, none⟩
      | some .cooldown => False
      | some .requests => (canRequestCerebras stats est now).allowed = false ∧
          ∃ s, (canRequestCerebras stats est now).reason
            = some ("Daily requests exhausted: Reset in " ++ s)
      | some .tokens => (canRequestCerebras stats est now).allowed = false ∧
          ∃ s, (canRequestCerebras stats est now).reason
            = some ("Token limit (TPM): Reset in " ++ s)) := by
  constructor
  · intro stats est now
    by_cases hc : cooldownActive stats.rateLimitState now
    · have hcls : claimOrderGroq stats.rateLimitState est now = some .cooldown := by
        unfold claimOrderGroq
        rw [if_pos hc]
      obtain ⟨r, hra, hr⟩ : ∃ r, stats.rateLimitState.retryAfter = some r
          ∧ (r ≠ 0 ∧ stats.rateLimitState.lastUpdated + r * 1000 > now) := by
        unfold cooldownActive at hc
        rcases hX : stats.rateLimitState.retryAfter with - | r
        · rw [hX] at hc
          simp at hc
        · rw [hX] at hc
          simp only [Bool.and_eq_true, decide_eq_true_eq] at hc
          exact ⟨r, rfl, hc⟩
      rw [hcls]
      have hchk := canRequestGroq_retry stats est now r hra hr
      exact ⟨by rw [hchk],
        ⟨toString (⌈r - (now - stats.rateLimitState.lastUpdated) / 1000⌉ : ℤ) ++ "s",
          by rw [hchk, String.append_assoc]⟩⟩
    · have hbud := canRequestGroq_eq_budget stats est now (by
        intro r hra hcon
        apply hc
        unfold cooldownActive
        rw [hra]
        simp [hcon.1, hcon.2])
      by_cases h1 : jsLe stats.rateLimitState.remainingRequestsDay (some 0)
          ∧ jsLt (some now) stats.rateLimitState.resetRequestsAt
      · have hcls : claimOrderGroq stats.rateLimitState est now = some .requests := by
          unfold claimOrderGroq
          rw [if_neg hc, if_pos h1]
        rw [hcls]
        have hchk := hbud.trans (groqBudgetChecks_requests _ est now h1)
        exact ⟨by rw [hchk], ⟨_, by rw [hchk]⟩⟩
      · by_cases h2 : jsLt stats.rateLimitState.remainingTokensMinute (some est)
            ∧ jsLt (some now) stats.rateLimitState.resetTokensAt
        · have hcls : claimOrderGroq stats.rateLimitState est now = some .tokens := by
            unfold claimOrderGroq
            rw [if_neg hc, if_neg h1, if_pos h2]
          rw [hcls]
          have hchk := hbud.trans (groqBudgetChecks_tokens _ est now h1 h2)
          exact ⟨by rw [hchk],
            ⟨toString (⌈(jsVal stats.rateLimitState.resetTokensAt - now) / 1000⌉ : ℤ) ++ "s",
              by rw [hchk, String.append_assoc]⟩⟩
        · have hcls : claimOrderGroq stats.rateLimitState est now = none := by
            unfold claimOrderGroq
            rw [if_neg hc, if_neg h1, if_neg h2]
          rw [hcls]
          exact hbud.trans (groqBudgetChecks_allow _ est now h1 h2)
  · intro stats est now
    by_cases h1 : jsLe stats.rateLimitState.remainingRequestsDay (some 0)
        ∧ jsLt (some 0) stats.rateLimitState.resetRequestsDaySeconds
    · have hcls : amendedOrderCerebras stats.rateLimitState est = some .requests := by
        unfold amendedOrderCerebras
        rw [if_pos h1]
      rw [hcls]
      have hchk := canRequestCerebras_requests stats est now h1
      exact ⟨by rw [hchk], ⟨_, by rw [hchk]⟩⟩
    · by_cases h2 : jsLt stats.rateLimitState.remainingTokensMinute (some est)
          ∧ jsLt (some 0) stats.rateLimitState.resetTokensMinuteSeconds
      · have hcls : amendedOrderCerebras stats.rateLimitState est = some .tokens := by
          unfold amendedOrderCerebras
          rw [if_neg h1, if_pos h2]
        rw [hcls]
        have hchk := canRequestCerebras_tokens stats est now h1 h2
        exact ⟨by rw [hchk],
          ⟨jsNumStr (jsCeil stats.rateLimitState.resetTokensMinuteSeconds) ++ "s",
            by rw [hchk, String.append_assoc]⟩⟩
      · have hcls : amendedOrderCerebras stats.rateLimitState est = none := by
          unfold amendedOrderCerebras
          rw [if_neg h1, if_neg h2]
        rw [hcls]
        exact canRequestCerebras_allow stats est now h1 h2

/-- C2 counterexample: the claim as stated is false for the Cerebras family.
On the stale Cerebras state at `now = 1000000` every condition of the claimed
order — no active cooldown, reset instant (`lastUpdated + seconds·1000`) not
in the future for either budget — selects "otherwise allow", yet the code
denies (it compares the stored seconds against 0 instead of the clock). -/
theorem c2_counterexample :
    claimOrderCerebras staleCerebrasStats.rateLimitState 0 1000000 = none ∧
    (canRequestCerebras staleCerebrasStats 0 1000000).allowed = false := by
  constructor
  · norm_num [claimOrderCerebras, cooldownActive, staleCerebrasStats, jsLe, jsLt, jsAdd, jsMul]
  · decide

/-- A Groq stats entry inside an active `retry-after` cooldown. -/
def cooldownGroqStats : UsageStats :=
  { provider := .groq,
    rateLimitState :=
      { remainingRequestsDay := some 1000, remainingTokensMinute := some 12000,
        limitRequestsDay := some 1000, limitTokensMinute := some 12000,
        resetRequestsAt := some 0, resetTokensAt := some 0,
        resetRequestsDaySeconds := none, resetTokensMinuteSeconds := none,
        retryAfter := some 30, lastUpdated := 0 },
    requestsToday := 0, tokensToday := 0, dayStart := 0 }

/-- Witness for C2 at concrete inputs: a Groq state in cooldown is classified
as a cooldown denial, and a fresh Cerebras state is classified as allowed. -/
theorem c2_admission_order_witness :
    ((canRequestGroq cooldownGroqStats 0 1000).allowed = false ∧
      ∃ s, (canRequestGroq cooldownGroqStats 0 1000).reason
        = some ("Rate limited: Retry after " ++ s)) ∧
    canRequestCerebras (freshStats cModelStale 0) 0 77 = ⟨true, none⟩ := by
  constructor
  · have h := c2_admission_order.1 cooldownGroqStats 0 1000
    have hcls : claimOrderGroq cooldownGroqStats.rateLimitState 0 1000 = some .cooldown := by
      norm_num [claimOrderGroq, cooldownActive, cooldownGroqStats]
    rw [hcls] at h
    exact h
  · have h := c2_admission_order.2 (freshStats cModelStale 0) 0 77
    have hcls : amendedOrderCerebras (freshStats cModelStale 0).rateLimitState 0 = none := by
      norm_num [amendedOrderCerebras, freshStats, createCerebrasState, cModelStale, jsLe, jsLt,
        RateLimits.requestsPerDay, RateLimits.tokensPerMinute]
    rw [hcls] at h
    exact h

/-! Claim C4. -/

/-- C4: `recordRequest` decrements the optimistic counters by 1 request and by
the estimated token cost, gated at zero: a counter that is already ≤ 0 is left
untouched.  Consequently an integer request counter never becomes negative
through any sequence of optimistic decrements, and the token counter of any
sequence with costs bounded by `C` never drops below `-C` (a single admission
may overshoot zero once, but repeated admissions do not compound); a remainder
≤ 0 whose reset is pending is denied by the admission check of either
provider family. -/
theorem c4_optimistic_decrement :
    (∀ (t : Tracker) (model : ModelConfig) (p : ProviderName) (tok day : ℚ),
        List.lookup model.id (recordRequest t model p tok day)
          = some (recordRequestStats (getStats t model day).1 tok)) ∧
    (∀ (st : RateLimitState) (tok q : ℚ), st.remainingRequestsDay = some q → 0 < q →
        (recordRequestState st tok).remainingRequestsDay = some (q - 1)) ∧
    (∀ (st : RateLimitState) (tok q : ℚ), st.remainingTokensMinute = some q → 0 < q →
        (recordRequestState st tok).remainingTokensMinute = some (q - tok)) ∧
    (∀ (costs : List ℚ) (st : RateLimitState) (z : ℤ),
        st.remainingRequestsDay = some (z : ℚ) → 0 ≤ z →
        ∃ z' : ℤ, (List.foldl recordRequestState st costs).remainingRequestsDay
          = some ((z' : ℤ) : ℚ) ∧ 0 ≤ z') ∧
    (∀ (costs : List ℚ) (st : RateLimitState) (q C : ℚ),
        st.remainingTokensMinute = some q → -C ≤ q → (∀ c ∈ costs, c ≤ C) →
        ∃ q', (List.foldl recordRequestState st costs).remainingTokensMinute = some q'
          ∧ -C ≤ q') ∧
    (∀ (stats : UsageStats) (est now : ℚ),
        jsLe stats.rateLimitState.remainingRequestsDay (some 0) →
        jsLt (some now) stats.rateLimitState.resetRequestsAt →
        (canRequestGroq stats est now).allowed = false) ∧
    (∀ (stats : UsageStats) (est now : ℚ),
        jsLe stats.rateLimitState.remainingRequestsDay (some 0) →
        jsLt (some 0) stats.rateLimitState.resetRequestsDaySeconds →
        (canRequestCerebras stats est now).allowed = false) := by
  refine ⟨?_, ?_, ?_, ?_, ?_, ?_, ?_⟩
  · intro t model p tok day
    unfold recordRequest
    exact lookup_setKey_self _ _ _
  · intro st tok q h hq
    simp [recordRequestState, h, jsLt, jsSub, hq]
  · intro st tok q h hq
    simp [recordRequestState, h, jsLt, jsSub, hq]
  · intro costs
    induction costs with
    | nil => intro st z h hz; exact ⟨z, h, hz⟩
    | cons c cs ih =>
      intro st z h hz
      rw [List.foldl_cons]
      by_cases h0 : (0 : ℚ) < (z : ℚ)
      · refine ih (recordRequestState st c) (z - 1) ?_ ?_
        · have : (recordRequestState st c).remainingRequestsDay = some ((z : ℚ) - 1) := by
            simp [recordRequestState, h, jsLt, jsSub, h0]
          rw [this]
          norm_num
        · have : 0 < z := by exact_mod_cast h0
          omega
      · refine ih (recordRequestState st c) z ?_ hz
        simp [recordRequestState, h, jsLt, jsSub, h0]
  · intro costs
    induction costs with
    | nil => intro st q C h hq _; exact ⟨q, h, hq⟩
    | cons c cs ih =>
      intro st q C h hq hall
      rw [List.foldl_cons]
      by_cases h0 : (0 : ℚ) < q
      · refine ih (recordRequestState st c) (q - c) C ?_ ?_ ?_
        · simp [recordRequestState, h, jsLt, jsSub, h0]
        · have hc : c ≤ C := hall c (by simp)
          linarith
        · intro x hx
          exact hall x (by simp [hx])
      · refine ih (recordRequestState st c) q C ?_ hq ?_
        · simp [recordRequestState, h, jsLt, jsSub, h0]
        · intro x hx
          exact hall x (by simp [hx])
  · intro stats est now hle hlt
    by_cases hc : ∃ r, stats.rateLimitState.retryAfter = some r
        ∧ (r ≠ 0 ∧ stats.rateLimitState.lastUpdated + r * 1000 > now)
    · obtain ⟨r, hra, hr⟩ := hc
      rw [canRequestGroq_retry stats est now r hra hr]
    · have hcd : ∀ r, stats.rateLimitState.retryAfter = some r →
          ¬(r ≠ 0 ∧ stats.rateLimitState.lastUpdated + r * 1000 > now) := by
        intro r hra hcon
        exact hc ⟨r, hra, hcon⟩
      rw [canRequestGroq_eq_budget stats est now hcd,
        groqBudgetChecks_requests _ est now ⟨hle, hlt⟩]
  · intro stats est now hle hlt
    rw [canRequestCerebras_requests stats est now ⟨hle, hlt⟩]

/-- A Groq model configuration used in concrete runs. -/
def gModelA : ModelConfig :=
  { id := "model-a", name := "Model A", provider := .groq, enabled := true,
    limits := .groq ⟨30, 1000, 12000, 100000⟩ }

/-- Witness for C4 at concrete inputs. -/
theorem c4_optimistic_decrement_witness :
    List.lookup "model-a" (recordRequest [] gModelA .groq 100 0)
      = some (recordRequestStats (getStats [] gModelA 0).1 100) ∧
    (recordRequestState decrementedGroqState 100).remainingRequestsDay = some 996 ∧
    (recordRequestState decrementedGroqState 100).remainingTokensMinute = some 11400 ∧
    (∃ z' : ℤ, (List.foldl recordRequestState decrementedGroqState
        [5, 7, 9]).remainingRequestsDay = some ((z' : ℤ) : ℚ) ∧ 0 ≤ z') ∧
    (∃ q', (List.foldl recordRequestState decrementedGroqState
        [5000, 20000]).remainingTokensMinute = some q' ∧ -20000 ≤ q') ∧
    (canRequestGroq
      { provider := .groq,
        rateLimitState :=
          { decrementedGroqState with
              remainingRequestsDay := some 0, resetRequestsAt := some 99999 },
        requestsToday := 0, tokensToday := 0, dayStart := 0 } 0 5).allowed = false ∧
    (canRequestCerebras staleCerebrasStats 0 5).allowed = false := by
  obtain ⟨p1, p2, p3, p4, p5, p6, p7⟩ := c4_optimistic_decrement
  refine ⟨p1 [] gModelA .groq 100 0, ?_, ?_, ?_, ?_, ?_, ?_⟩
  · have := p2 decrementedGroqState 100 997 (by norm_num [decrementedGroqState]) (by norm_num)
    rw [this]
    norm_num
  · have := p3 decrementedGroqState 100 11500 (by norm_num [decrementedGroqState]) (by norm_num)
    rw [this]
    norm_num
  · exact p4 [5, 7, 9] decrementedGroqState 997 (by norm_num [decrementedGroqState]) (by norm_num)
  · refine p5 [5000, 20000] decrementedGroqState 11500 20000
      (by norm_num [decrementedGroqState]) (by norm_num) ?_
    intro c hc
    simp only [List.mem_cons, List.mem_singleton, List.not_mem_nil, or_false] at hc
    rcases hc with rfl | rfl <;> norm_num
  · exact p6 _ 0 5 (by decide) (by decide)
  · exact p7 staleCerebrasStats 0 5 (by decide) (by decide)

/-! Claim C9. -/

/-- C9 counterexample: the claim as stated is false — the status projections
are not side-effect-free.  Calling `getRemainingCapacity` for a model with no
usage-stats entry lazily creates and inserts one: the tracker map observably
changes from empty to holding a fresh entry. -/
theorem c9_counterexample :
    List.lookup "model-a" ([] : Tracker) = none ∧
    (getRemainingCapacity [] gModelA 5 0).2 ≠ ([] : Tracker) ∧
    List.lookup "model-a" (getRemainingCapacity [] gModelA 5 0).2
      = some (freshStats gModelA 0) := by
  refine ⟨rfl, ?_, ?_⟩ <;> decide

/-- C9 (amended): on a model whose entry already exists with a current
`dayStart`, `getRemainingCapacity` and `getRateLimitInfo` leave the tracker
unchanged (otherwise they lazily create the entry and roll the daily
counters).  Groq reset strings are computed from the current time at call
time, but the Cerebras `resetInfo` re-renders the stored seconds-until-reset
from the last reconciliation and is independent of the current time. -/
theorem c9_readonly_amended :
    (∀ (t : Tracker) (model : ModelConfig) (now day : ℚ) (s : UsageStats),
        List.lookup model.id t = some s → s.dayStart = day →
        (getRemainingCapacity t model now day).2 = t
          ∧ (getRateLimitInfo t model now day).2 = t) ∧
    (∀ (t : Tracker) (model : ModelConfig) (now nowOther day : ℚ),
        model.provider = .cerebras →
        (getRateLimitInfo t model now day).1.resetInfo
          = (getRateLimitInfo t model nowOther day).1.resetInfo) ∧
    (∀ (t : Tracker) (model : ModelConfig) (now day : ℚ), model.provider = .groq →
        jsLt (some now) ((getStats t model day).1.rateLimitState.resetRequestsAt) = false →
        jsLt (some now) ((getStats t model day).1.rateLimitState.resetTokensAt) = false →
        (getRateLimitInfo t model now day).1.resetInfo
          = "Requests reset: now, Tokens reset: now") := by
  refine ⟨?_, ?_, ?_⟩
  · intro t model now day s hs hd
    have hstats : (getStats t model day).1 = s := by
      unfold getStats
      simp only [hs]
      exact rollDay_of_dayStart s day hd
    have hsnd : (getStats t model day).2 = t := by
      rw [getStats_snd, hstats]
      exact setKey_of_lookup_eq t model.id s hs
    constructor
    · unfold getRemainingCapacity
      rcases hp : model.provider <;> simp only [hp, hsnd]
    · unfold getRateLimitInfo
      rcases hp : model.provider <;> simp only [hp, hsnd]
  · intro t model now nowOther day hp
    unfold getRateLimitInfo
    simp only [hp]
  · intro t model now day hp h1 h2
    unfold getRateLimitInfo
    simp only [hp]
    rw [if_neg (by simp [h1]), if_neg (by simp [h2])]
    decide

/-- A Groq stats entry matching `gModelA` with `dayStart = 0`. -/
def gStatsA : UsageStats :=
  { provider := .groq, rateLimitState := decrementedGroqState,
    requestsToday := 3, tokensToday := 600, dayStart := 0 }

/-- Witness for C9 at concrete inputs. -/
theorem c9_readonly_amended_witness :
    ((getRemainingCapacity [("model-a", gStatsA)] gModelA 5 0).2 = [("model-a", gStatsA)]
      ∧ (getRateLimitInfo [("model-a", gStatsA)] gModelA 5 0).2 = [("model-a", gStatsA)]) ∧
    (getRateLimitInfo [("c-model", staleCerebrasStats)] cModelStale 1 0).1.resetInfo
      = (getRateLimitInfo [("c-model", staleCerebrasStats)] cModelStale 999999 0).1.resetInfo ∧
    (getRateLimitInfo [("model-a", gStatsA)] gModelA 5000 0).1.resetInfo
      = "Requests reset: now, Tokens reset: now" := by
  obtain ⟨p1, p2, p3⟩ := c9_readonly_amended
  refine ⟨p1 [("model-a", gStatsA)] gModelA 5 0 gStatsA (by decide) (by decide), ?_, ?_⟩
  · exact p2 [("c-model", staleCerebrasStats)] cModelStale 1 999999 0 (by decide)
  · exact p3 [("model-a", gStatsA)] gModelA 5000 0 (by decide) (by decide) (by decide)

/-! Claims C5 and C6: the fallback loop and the round-robin rotation. -/

theorem eq_or_id_ne_of_mem {models : List ModelConfig}
    (h : (models.map ModelConfig.id).Nodup) {a b : ModelConfig}
    (ha : a ∈ models) (hb : b ∈ models) : a = b ∨ a.id ≠ b.id := by
  by_cases hid : a.id = b.id
  · exact Or.inl (List.inj_on_of_nodup_map h ha hb hid)
  · exact Or.inr hid

/-- With pairwise distinct model ids, one admission check leaves every model's
admission result unchanged. -/
theorem canRequest_all_stable {models : List ModelConfig}
    (hnodup : (models.map ModelConfig.id).Nodup) {model : ModelConfig} (hm : model ∈ models)
    (t : Tracker) (e e' n d : ℚ) :
    ∀ m ∈ models,
      (canRequest (canRequest t model e n d).2 m e' n d).1 = (canRequest t m e' n d).1 := by
  intro m hmem
  rcases eq_or_id_ne_of_mem hnodup hmem hm with rfl | hne
  · exact canRequest_fst_stable t m m e e' n d (Or.inl rfl)
  · exact canRequest_fst_stable t model m e e' n d (Or.inr hne)

theorem selectByStrategy_fields (mgr : ManagerState) (rng : List ℚ) :
    (selectByStrategy mgr rng).2.1.models = mgr.models ∧
    (selectByStrategy mgr rng).2.1.strategy = mgr.strategy ∧
    (selectByStrategy mgr rng).2.1.autoFallback = mgr.autoFallback ∧
    (selectByStrategy mgr rng).2.1.usageCount = mgr.usageCount := by
  unfold selectByStrategy
  rcases hs : mgr.strategy <;> simp [hs]

theorem selectByStrategy_index (mgr : ManagerState) (rng : List ℚ)
    (hne : mgr.models ≠ []) (hidx : mgr.currentIndex < mgr.models.length) :
    (selectByStrategy mgr rng).2.1.currentIndex
      < (selectByStrategy mgr rng).2.1.models.length := by
  have hlen : 0 < mgr.models.length := List.length_pos.mpr hne
  unfold selectByStrategy
  rcases hs : mgr.strategy <;> simp only [hs]
  · exact Nat.mod_lt _ hlen
  · exact hidx
  · exact hidx

theorem selectByStrategy_rng_sub (mgr : ManagerState) (rng : List ℚ) :
    ∀ r ∈ (selectByStrategy mgr rng).2.2, r ∈ rng := by
  unfold selectByStrategy
  rcases hs : mgr.strategy <;> simp only [hs]
  · exact fun r hr => hr
  · exact fun r hr => List.mem_of_mem_tail hr
  · exact fun r hr => hr

theorem selectByStrategy_mem (mgr : ManagerState) (rng : List ℚ)
    (hne : mgr.models ≠ []) (hidx : mgr.currentIndex < mgr.models.length)
    (hrng : ∀ r ∈ rng, 0 ≤ r ∧ r < 1) :
    (selectByStrategy mgr rng).1 ∈ mgr.models := by
  have hlen : 0 < mgr.models.length := List.length_pos.mpr hne
  unfold selectByStrategy
  rcases hs : mgr.strategy <;> simp only [hs]
  · rw [List.getD_eq_getElem?_getD, List.getElem?_eq_getElem hidx]
    exact List.getElem_mem _
  · have hr : 0 ≤ rng.headD 0 ∧ rng.headD 0 < 1 := by
      rcases rng with - | ⟨a, l⟩
      · exact ⟨le_refl 0, by norm_num⟩
      · exact hrng a (by simp)
    have hcast : (0 : ℚ) < (mgr.models.length : ℚ) := by exact_mod_cast hlen
    have h0 : (0 : ℤ) ≤ ⌊rng.headD 0 * (mgr.models.length : ℚ)⌋ :=
      Int.floor_nonneg.mpr (mul_nonneg hr.1 (le_of_lt hcast))
    have h1 : ⌊rng.headD 0 * (mgr.models.length : ℚ)⌋ < (mgr.models.length : ℤ) := by
      apply Int.floor_lt.mpr
      calc rng.headD 0 * (mgr.models.length : ℚ)
          < 1 * (mgr.models.length : ℚ) := by
            exact mul_lt_mul_of_pos_right hr.2 hcast
        _ = ((mgr.models.length : ℤ) : ℚ) := by push_cast; ring
    have hidx2 : (⌊rng.headD 0 * (mgr.models.length : ℚ)⌋).toNat < mgr.models.length := by
      rw [← Int.toNat_of_nonneg h0] at h1
      exact_mod_cast h1
    rw [List.getD_eq_getElem?_getD, List.getElem?_eq_getElem hidx2]
    exact List.getElem_mem _
  · rcases hsort : List.insertionSort
        (fun a b => countOf mgr.usageCount a.id ≤ countOf mgr.usageCount b.id) mgr.models
      with - | ⟨a, rest⟩
    · exfalso
      have := List.length_insertionSort
        (fun a b => countOf mgr.usageCount a.id ≤ countOf mgr.usageCount b.id) mgr.models
      rw [hsort] at this
      simp at this
      exact hne (by rw [← List.length_eq_zero]; omega)
    · have ha : a ∈ List.insertionSort
          (fun a b => countOf mgr.usageCount a.id ≤ countOf mgr.usageCount b.id) mgr.models := by
        rw [hsort]
        exact List.mem_cons_self a rest
      rw [List.mem_insertionSort] at ha
      simpa [hsort] using ha

theorem selectByStrategy_roundRobin (mgr : ManagerState) (rng : List ℚ)
    (h : mgr.strategy = .roundRobin) :
    selectByStrategy mgr rng
      = (mgr.models.getD mgr.currentIndex dummyModel,
         { mgr with currentIndex := (mgr.currentIndex + 1) % mgr.models.length }, rng) := by
  unfold selectByStrategy
  rw [h]

/-- One unrolling of the `getNextModel` loop. -/
theorem getNextModelGo_succ (est now day : ℚ) (n : ℕ) (mgr : ManagerState) (rng : List ℚ)
    (t : Tracker) (acc : List String) :
    getNextModelGo est now day (n + 1) mgr rng t acc
      = (if ((canRequest t (selectByStrategy mgr rng).1 est now day).1).allowed then
          (.ok (selectByStrategy mgr rng).1 acc,
           { (selectByStrategy mgr rng).2.1 with
              usageCount := setKey (selectByStrategy mgr rng).2.1.usageCount
                (selectByStrategy mgr rng).1.id
                (countOf (selectByStrategy mgr rng).2.1.usageCount
                  (selectByStrategy mgr rng).1.id + 1) },
           (selectByStrategy mgr rng).2.2,
           (canRequest t (selectByStrategy mgr rng).1 est now day).2)
        else if (selectByStrategy mgr rng).2.1.autoFallback then
          getNextModelGo est now day n (selectByStrategy mgr rng).2.1
            (selectByStrategy mgr rng).2.2
            (canRequest t (selectByStrategy mgr rng).1 est now day).2
            (acc ++ [skipEntry (selectByStrategy mgr rng).1
              ((canRequest t (selectByStrategy mgr rng).1 est now day).1).reason])
        else
          (.rateLimited ("Model " ++ (selectByStrategy mgr rng).1.id ++ " rate limited: "
              ++ ((canRequest t (selectByStrategy mgr rng).1 est now day).1).reason.getD
                "undefined"),
           (selectByStrategy mgr rng).2.1, (selectByStrategy mgr rng).2.2,
           (canRequest t (selectByStrategy mgr rng).1 est now day).2)) := rfl

/-- With auto-fallback on and every candidate denied, the loop always runs its
fuel down to zero, appending exactly one skip entry per iteration — for every
rotation strategy. -/
theorem getNextModelGo_exhaust (est now day : ℚ) (M : List ModelConfig)
    (hnodup : (M.map ModelConfig.id).Nodup) (hne : M ≠ []) :
    ∀ (fuel : ℕ) (mgr : ManagerState) (rng : List ℚ) (t : Tracker) (acc : List String),
      mgr.models = M → mgr.autoFallback = true → mgr.currentIndex < M.length →
      (∀ r ∈ rng, 0 ≤ r ∧ r < 1) →
      (∀ m ∈ M, ((canRequest t m est now day).1).allowed = false) →
      ∃ entries : List String,
        (getNextModelGo est now day fuel mgr rng t acc).1 = .allExhausted (acc ++ entries)
          ∧ entries.length = fuel := by
  intro fuel
  induction fuel with
  | zero =>
    intro mgr rng t acc _ _ _ _ _
    exact ⟨[], by simp [getNextModelGo], rfl⟩
  | succ n ih =>
    intro mgr rng t acc hM hfb hidx hrng hdeny
    have hneM : mgr.models ≠ [] := by rw [hM]; exact hne
    have hidx' : mgr.currentIndex < mgr.models.length := by rw [hM]; exact hidx
    have hmem : (selectByStrategy mgr rng).1 ∈ M := by
      rw [← hM]
      exact selectByStrategy_mem mgr rng hneM hidx' hrng
    have hck : ((canRequest t (selectByStrategy mgr rng).1 est now day).1).allowed = false :=
      hdeny _ hmem
    obtain ⟨hFm, -, hFf, -⟩ := selectByStrategy_fields mgr rng
    rw [getNextModelGo_succ, if_neg (by rw [hck]; exact Bool.false_ne_true),
      if_pos (by rw [hFf]; exact hfb)]
    obtain ⟨entries, he, hlen⟩ := ih (selectByStrategy mgr rng).2.1
      (selectByStrategy mgr rng).2.2
      (canRequest t (selectByStrategy mgr rng).1 est now day).2
      (acc ++ [skipEntry (selectByStrategy mgr rng).1
        ((canRequest t (selectByStrategy mgr rng).1 est now day).1).reason])
      (by rw [hFm, hM]) (by rw [hFf]; exact hfb)
      (by
        have h := selectByStrategy_index mgr rng hneM hidx'
        rwa [hFm, hM] at h)
      (fun r hr => hrng r (selectByStrategy_rng_sub mgr rng r hr))
      (fun m hm => by
        rw [canRequest_all_stable hnodup hmem t est est now day m hm]
        exact hdeny m hm)
    refine ⟨skipEntry (selectByStrategy mgr rng).1
      ((canRequest t (selectByStrategy mgr rng).1 est now day).1).reason :: entries, ?_, ?_⟩
    · rw [he, List.append_assoc]
      rfl
    · simp [hlen]

/-- Under the round-robin strategy the loop walks the candidate list from the
cursor, appending one entry per candidate, in order. -/
theorem getNextModelGo_roundRobinExhaust (est now day : ℚ) (M : List ModelConfig)
    (R : ModelConfig → CheckResult) (hnodup : (M.map ModelConfig.id).Nodup) :
    ∀ (fuel i : ℕ) (mgr : ManagerState) (rng : List ℚ) (t : Tracker) (acc : List String),
      mgr.models = M → mgr.strategy = .roundRobin → mgr.autoFallback = true →
      mgr.currentIndex = i → i + fuel = M.length →
      (∀ m ∈ M, (canRequest t m est now day).1 = R m) →
      (∀ m ∈ M, (R m).allowed = false) →
      (getNextModelGo est now day fuel mgr rng t acc).1
        = .allExhausted (acc ++ (M.drop i).map (fun m => skipEntry m (R m).reason)) := by
  intro fuel
  induction fuel with
  | zero =>
    intro i mgr rng t acc hM hst hfb hci hsum hR hRF
    have hi : i = M.length := by omega
    simp [getNextModelGo, hi, List.drop_length]
  | succ n ih =>
    intro i mgr rng t acc hM hst hfb hci hsum hR hRF
    have hiK : i < M.length := by omega
    have hmodel : (selectByStrategy mgr rng).1 = M[i] := by
      rw [selectByStrategy_roundRobin mgr rng hst]
      simp only
      rw [hM, hci, List.getD_eq_getElem?_getD, List.getElem?_eq_getElem hiK]
      rfl
    have hmem : M[i] ∈ M := List.getElem_mem hiK
    have hck : (canRequest t (selectByStrategy mgr rng).1 est now day).1 = R M[i] := by
      rw [hmodel]
      exact hR _ hmem
    obtain ⟨hFm, hFs, hFf, -⟩ := selectByStrategy_fields mgr rng
    rw [getNextModelGo_succ, if_neg (by rw [hck, hRF _ hmem]; exact Bool.false_ne_true),
      if_pos (by rw [hFf]; exact hfb)]
    have hdrop : M.drop i = M[i] :: M.drop (i + 1) := List.drop_eq_getElem_cons hiK
    have hacc : ∀ tail : List String,
        (acc ++ [skipEntry (selectByStrategy mgr rng).1
          ((canRequest t (selectByStrategy mgr rng).1 est now day).1).reason]) ++ tail
          = acc ++ (skipEntry M[i] (R M[i]).reason :: tail) := by
      intro tail
      rw [hck, hmodel, List.append_assoc]
      rfl
    have hidx2 : (selectByStrategy mgr rng).2.1.currentIndex = (i + 1) % M.length := by
      rw [selectByStrategy_roundRobin mgr rng hst]
      simp only
      rw [hci, hM]
    rcases n with - | n'
    · -- last iteration: the recursion bottoms out at fuel 0
      have hi1 : i + 1 = M.length := by omega
      rw [show getNextModelGo est now day 0 (selectByStrategy mgr rng).2.1
          (selectByStrategy mgr rng).2.2
          (canRequest t (selectByStrategy mgr rng).1 est now day).2
          (acc ++ [skipEntry (selectByStrategy mgr rng).1
            ((canRequest t (selectByStrategy mgr rng).1 est now day).1).reason])
          = (.allExhausted (acc ++ [skipEntry (selectByStrategy mgr rng).1
              ((canRequest t (selectByStrategy mgr rng).1 est now day).1).reason]),
             (selectByStrategy mgr rng).2.1, (selectByStrategy mgr rng).2.2,
             (canRequest t (selectByStrategy mgr rng).1 est now day).2) from rfl]
      simp only
      rw [show (acc ++ [skipEntry (selectByStrategy mgr rng).1
          ((canRequest t (selectByStrategy mgr rng).1 est now day).1).reason])
          = (acc ++ [skipEntry (selectByStrategy mgr rng).1
            ((canRequest t (selectByStrategy mgr rng).1 est now day).1).reason]) ++ []
          from by simp]
      rw [hacc [], hdrop]
      have : M.drop (i + 1) = [] := by
        rw [hi1]
        simp
      rw [this]
      rfl
    · have hlt : i + 1 < M.length := by omega
      have hmod : (i + 1) % M.length = i + 1 := Nat.mod_eq_of_lt hlt
      rw [ih (i + 1) (selectByStrategy mgr rng).2.1 (selectByStrategy mgr rng).2.2
        (canRequest t (selectByStrategy mgr rng).1 est now day).2
        (acc ++ [skipEntry (selectByStrategy mgr rng).1
          ((canRequest t (selectByStrategy mgr rng).1 est now day).1).reason])
        (by rw [hFm, hM]) (by rw [hFs]; exact hst) (by rw [hFf]; exact hfb)
        (by rw [hidx2, hmod]) (by omega)
        (fun m hm => by
          rw [hmodel, canRequest_all_stable hnodup hmem t est est now day m hm]
          exact hR m hm)
        hRF]
      rw [hacc, hdrop]
      rfl

/-- C5 (amended): with auto-fallback enabled and every candidate denied,
`getNextModel` performs at most K = |candidate set| selection attempts (the
loop fuel is K by construction, so a (K+1)-th iteration is impossible) and
fails with a combined reason list of exactly K entries, under every rotation
strategy.  Under the round-robin strategy with the cursor at the start, the
list is exactly one entry per candidate in configured order, each carrying
that candidate's own rejection reason; under least-used (or random) the K
entries may repeat a single candidate instead of covering each one. -/
theorem c5_exhaustion (mgr : ManagerState) (messages : List ChatMessage) (rng : List ℚ)
    (t : Tracker) (now day : ℚ)
    (hne : mgr.models ≠ [])
    (hnodup : (mgr.models.map ModelConfig.id).Nodup)
    (hfb : mgr.autoFallback = true)
    (hidx : mgr.currentIndex < mgr.models.length)
    (hrng : ∀ r ∈ rng, 0 ≤ r ∧ r < 1)
    (hdeny : ∀ m ∈ mgr.models,
      ((canRequest t m ((estimateTokens messages : ℤ) : ℚ) now day).1).allowed = false) :
    (∃ entries : List String,
      (getNextModel mgr messages rng t now day).1 = .allExhausted entries
        ∧ entries.length = mgr.models.length) ∧
    (mgr.strategy = .roundRobin → mgr.currentIndex = 0 →
      (getNextModel mgr messages rng t now day).1
        = .allExhausted (mgr.models.map (fun m => skipEntry m
            ((canRequest t m ((estimateTokens messages : ℤ) : ℚ) now day).1).reason))) := by
  constructor
  · obtain ⟨entries, he, hlen⟩ := getNextModelGo_exhaust
      ((estimateTokens messages : ℤ) : ℚ) now day mgr.models hnodup hne
      mgr.models.length mgr rng t [] rfl hfb hidx hrng hdeny
    refine ⟨entries, ?_, hlen⟩
    unfold getNextModel
    rw [he]
    simp
  · intro hst hci
    have h := getNextModelGo_roundRobinExhaust ((estimateTokens messages : ℤ) : ℚ) now day
      mgr.models (fun m => (canRequest t m ((estimateTokens messages : ℤ) : ℚ) now day).1)
      hnodup mgr.models.length 0 mgr rng t [] rfl hst hfb hci (by omega)
      (fun m _ => rfl) hdeny
    unfold getNextModel
    rw [h]
    simp

/-- First of the two Cerebras models used in the concrete fallback runs. -/
def cmA : ModelConfig :=
  { id := "ca", name := "CA", provider := .cerebras, enabled := true,
    limits := .cerebras ⟨30, 900, 14400, 60000, 1000000, 1000000⟩ }

/-- Second of the two Cerebras models used in the concrete fallback runs. -/
def cmB : ModelConfig :=
  { id := "cb", name := "CB", provider := .cerebras, enabled := true,
    limits := .cerebras ⟨30, 900, 14400, 60000, 1000000, 1000000⟩ }

/-- A manager over `[cmA, cmB]` using the least-used strategy. -/
def mgrLU : ManagerState :=
  { models := [cmA, cmB], currentIndex := 0, strategy := .leastUsed,
    autoFallback := true, usageCount := [] }

/-- A manager over `[cmA, cmB]` using the round-robin strategy. -/
def mgrRR : ManagerState :=
  { models := [cmA, cmB], currentIndex := 0, strategy := .roundRobin,
    autoFallback := true, usageCount := [] }

/-- A tracker on which both models are denied (stale zero request counters). -/
def trackerLU : Tracker := [("ca", staleCerebrasStats), ("cb", staleCerebrasStats)]

/-- C5 counterexample: the claim as stated is false.  Under the least-used
strategy (counters tie, stable sort, and usage counts only grow on admission)
both of the two iterations select the same candidate `ca`: the failure carries
exactly 2 entries, but both are for `ca` and neither names `cb` — not "one per
candidate, each carrying that candidate's specific rejection reason". -/
theorem c5_counterexample :
    (getNextModel mgrLU [] [] trackerLU 1000000 0).1
      = .allExhausted
          ["cerebras/ca: Daily requests exhausted: Reset in 10s",
           "cerebras/ca: Daily requests exhausted: Reset in 10s"] := by
  decide

/-- Witness for C5 at a concrete input: the same denied candidate set under
round-robin yields exactly one entry per candidate, in configured order. -/
theorem c5_exhaustion_witness :
    (∃ entries : List String,
      (getNextModel mgrRR [] [] trackerLU 1000000 0).1 = .allExhausted entries
        ∧ entries.length = 2) ∧
    (getNextModel mgrRR [] [] trackerLU 1000000 0).1
      = .allExhausted
          [skipEntry cmA
            ((canRequest trackerLU cmA ((estimateTokens [] : ℤ) : ℚ) 1000000 0).1).reason,
           skipEntry cmB
            ((canRequest trackerLU cmB ((estimateTokens [] : ℤ) : ℚ) 1000000 0).1).reason] := by
  have h := c5_exhaustion mgrRR [] [] trackerLU 1000000 0 (by decide) (by decide) rfl
    (by decide) (by intro r hr; cases hr) (by decide)
  obtain ⟨⟨entries, he, hlen⟩, hrr⟩ := h
  constructor
  · exact ⟨entries, he, hlen⟩
  · have := hrr rfl rfl
    simpa using this

/-- `n` consecutive `getNextModel` calls, threading the manager, the random
oracle and the tracker, collecting the outcomes. -/
def callSeq (messages : List ChatMessage) (now day : ℚ) :
    ℕ → ManagerState → List ℚ → Tracker → List NextModelResult
  | 0, _, _, _ => []
  | n + 1, mgr, rng, t =>
    (getNextModel mgr messages rng t now day).1
      :: callSeq messages now day n (getNextModel mgr messages rng t now day).2.1
        (getNextModel mgr messages rng t now day).2.2.1
        (getNextModel mgr messages rng t now day).2.2.2

theorem callSeq_roundRobin (messages : List ChatMessage) (now day : ℚ) (M : List ModelConfig)
    (hnodup : (M.map ModelConfig.id).Nodup) (_hne : M ≠ []) :
    ∀ (n i : ℕ) (mgr : ManagerState) (rng : List ℚ) (t : Tracker),
      mgr.models = M → mgr.strategy = .roundRobin → mgr.currentIndex = i →
      i + n = M.length →
      (∀ m ∈ M,
        ((canRequest t m ((estimateTokens messages : ℤ) : ℚ) now day).1).allowed = true) →
      callSeq messages now day n mgr rng t
        = (M.drop i).map (fun m => NextModelResult.ok m []) := by
  intro n
  induction n with
  | zero =>
    intro i mgr rng t hM hst hci hsum hallow
    have hi : i = M.length := by omega
    simp [callSeq, hi]
  | succ n ih =>
    intro i mgr rng t hM hst hci hsum hallow
    have hiK : i < M.length := by omega
    obtain ⟨k, hk⟩ : ∃ k, mgr.models.length = k + 1 := ⟨M.length - 1, by rw [hM]; omega⟩
    have hmodel : (selectByStrategy mgr rng).1 = M[i] := by
      rw [selectByStrategy_roundRobin mgr rng hst]
      simp only
      rw [hM, hci, List.getD_eq_getElem?_getD, List.getElem?_eq_getElem hiK]
      rfl
    have hmem : M[i] ∈ M := List.getElem_mem hiK
    have hck : ((canRequest t (selectByStrategy mgr rng).1
        ((estimateTokens messages : ℤ) : ℚ) now day).1).allowed = true := by
      rw [hmodel]
      exact hallow _ hmem
    have hstep : getNextModel mgr messages rng t now day
        = (.ok (selectByStrategy mgr rng).1 [],
           { (selectByStrategy mgr rng).2.1 with
              usageCount := setKey (selectByStrategy mgr rng).2.1.usageCount
                (selectByStrategy mgr rng).1.id
                (countOf (selectByStrategy mgr rng).2.1.usageCount
                  (selectByStrategy mgr rng).1.id + 1) },
           (selectByStrategy mgr rng).2.2,
           (canRequest t (selectByStrategy mgr rng).1
             ((estimateTokens messages : ℤ) : ℚ) now day).2) := by
      unfold getNextModel
      rw [hk, getNextModelGo_succ, if_pos hck]
    have hrng2 : (selectByStrategy mgr rng).2.2 = rng := by
      rw [selectByStrategy_roundRobin mgr rng hst]
    have hidx2 : (selectByStrategy mgr rng).2.1.currentIndex = (i + 1) % M.length := by
      rw [selectByStrategy_roundRobin mgr rng hst]
      simp only
      rw [hci, hM]
    obtain ⟨hFm, hFs, -, -⟩ := selectByStrategy_fields mgr rng
    have hdrop : M.drop i = M[i] :: M.drop (i + 1) := List.drop_eq_getElem_cons hiK
    rw [show callSeq messages now day (n + 1) mgr rng t
        = (getNextModel mgr messages rng t now day).1
          :: callSeq messages now day n (getNextModel mgr messages rng t now day).2.1
            (getNextModel mgr messages rng t now day).2.2.1
            (getNextModel mgr messages rng t now day).2.2.2 from rfl]
    rw [hstep]
    simp only
    rw [hdrop, List.map_cons, hmodel]
    congr 1
    rcases n with - | n'
    · have : M.drop (i + 1) = [] := by
        have hi1 : i + 1 = M.length := by omega
        rw [hi1]
        simp
      rw [this]
      rfl
    · have hlt : i + 1 < M.length := by omega
      have hmod : (i + 1) % M.length = i + 1 := Nat.mod_eq_of_lt hlt
      rw [hrng2]
      refine ih (i + 1) _ rng _ (by rw [hFm, hM]) (by rw [hFs]; exact hst)
        (by rw [hidx2, hmod]) (by omega) ?_
      intro m hm
      rw [canRequest_all_stable hnodup hmem t ((estimateTokens messages : ℤ) : ℚ)
        ((estimateTokens messages : ℤ) : ℚ) now day m hm]
      exact hallow m hm

/-- C6: for a candidate set of size K with distinct ids and no rejections, K
consecutive `getNextModel` calls under the round-robin strategy (cursor at the
start) return each candidate exactly once, in original configured order. -/
theorem c6_round_robin_fair (mgr : ManagerState) (messages : List ChatMessage) (rng : List ℚ)
    (t : Tracker) (now day : ℚ)
    (hne : mgr.models ≠ [])
    (hnodup : (mgr.models.map ModelConfig.id).Nodup)
    (hst : mgr.strategy = .roundRobin)
    (hci : mgr.currentIndex = 0)
    (hallow : ∀ m ∈ mgr.models,
      ((canRequest t m ((estimateTokens messages : ℤ) : ℚ) now day).1).allowed = true) :
    callSeq messages now day mgr.models.length mgr rng t
      = mgr.models.map (fun m => NextModelResult.ok m []) := by
  have h := callSeq_roundRobin messages now day mgr.models hnodup hne mgr.models.length 0
    mgr rng t rfl hst hci (by omega) hallow
  simpa using h

/-- Witness for C6 at a concrete input: two fresh Cerebras candidates, both
admissible, visited once each in configured order over two calls. -/
theorem c6_round_robin_fair_witness :
    callSeq [] 1000000 0 2 mgrRR [] []
      = [NextModelResult.ok cmA [], NextModelResult.ok cmB []] := by
  have hest : ((estimateTokens ([] : List ChatMessage) : ℤ) : ℚ) = 0 := by
    norm_num [estimateTokens]
  have h := c6_round_robin_fair mgrRR [] [] ([] : Tracker) 1000000 0 (by decide) (by decide)
    rfl rfl ?hallow
  case hallow =>
    intro m hm
    rw [hest]
    have hm2 : m = cmA ∨ m = cmB := by simpa [mgrRR] using hm
    rcases hm2 with rfl | rfl <;> decide
  simpa [mgrRR] using h

end MultiAI
